import Mathlib

/-!
TerraControl: timing core of the terrarium controller.

A shallow embedding of the timing core of `main.c` and `bitOperation.c`
(ATmega32, 8 MHz): the bit helpers, the software timer bank driven by the
1 ms tick interrupt, the PWM compare-match interrupt, the single-wire sensor
transaction `handleSensor` and the sensor step of the main loop, followed by
the consumers of its results: `handleTime`, `handleLight` and `handleHeater`.

Conventions.
* `uint8_t` / `uint16_t` variables are natural numbers; every store that can
  overflow is reduced `% 256` / `% 65536` explicitly.  `int` is 16 bits wide
  on the AVR, which is the width used for the promoted operands of `setBit`.
* C arrays are functions `Nat → Nat`, updated with `upd`.
* Volatile hardware (the tick counter advanced by the TIMER2 interrupt, the
  free-running counter `TCNT0`, the sensor input pin) is driven by an oracle
  `Hw`, indexed by the number of observations made so far.
* Interrupts are not interleaved with the main-loop code: the tick interrupt
  shows through the oracle only, and the PWM interrupt is a function of its
  own on the state.
* The busy-wait loops are recursive functions on a fuel argument.  The loops
  guarded by the `timeout` counter are run with `SENS_TIMEOUT` units of fuel,
  which they provably never exhaust; the request-pulse wait has no timeout in
  the source and takes the fuel of the caller.
-/

namespace TerraControl

/-! ## Constants (`terraControl.h`, `main.c`) -/

def DAT_OPTION : Nat := 0
def DAT_TEMP : Nat := 1
def DAT_TEMP_OK : Nat := 2
def DAT_HYGRO : Nat := 3
def DAT_HYGRO_OK : Nat := 4
def DAT_DAYTIME : Nat := 5

def MAX_PWM : Nat := 100

def NUM_TIMERS : Nat := 4
def T_BTN : Nat := 0
def T_ACTION : Nat := 1
def T_WAIT : Nat := 2
def T_CLOCK : Nat := 3

def SENS_PERIOD : Nat := 30000
def SENS_TIMEOUT : Nat := 65000
def SENS_MAX_ERR : Nat := 1
def SENS_NOT_READ : Nat := 0
def SENS_OK : Nat := 1

def COL_RED : Nat := 0
def COL_GRE : Nat := 1
def COL_BLU : Nat := 2

/-- Bit number of the timer-1 compare-match-A interrupt enable in `TIMSK`
(`avr/io.h` for the ATmega32). -/
def OCIE1A : Nat := 4

/-- Bit number of the sensor output pin in `PORTD` (`SENS_OUT` is `&PORTD,4`). -/
def SENS_OUT : Nat := 4

/-! ## `bitOperation.c` -/

/-- The C function `setBit(reg, bit, value)`: clears the bit when `value == 0`, sets it
otherwise.  The operands are promoted to 16-bit `int`; the result is stored
back into the 8-bit register. -/
def setBit (reg bit value : Nat) : Nat :=
  if value = 0 then (reg &&& (65535 ^^^ ((1 <<< bit) % 65536))) % 256
  else (reg ||| ((1 <<< bit) % 65536)) % 256

/-- The C function `readBit(reg, bit)`: `(*reg >> bit) & 1`. -/
def readBit (reg bit : Nat) : Nat := (reg >>> bit) &&& 1

/-- The C function `toggleBit(reg, bit)`: `setBit(reg, bit, !readBit(reg, bit))`. -/
def toggleBit (reg bit : Nat) : Nat :=
  setBit reg bit (if readBit reg bit = 0 then 1 else 0)

/-! ## Machine state -/

/-- Array store `a[i] = v`. -/
def upd (a : Nat → Nat) (i v : Nat) : Nat → Nat :=
  fun j => if j = i then v else a j

/-- The global variables of `main.c` and the I/O registers the timing core
touches.  `clk` is not a program variable: it counts the observations of
volatile hardware made so far and indexes the oracle `Hw`. -/
structure State where
  timer : Nat
  timers : Nat → Nat
  clockCycle : Nat
  pwmCycle : Nat
  seconds : Nat
  lastLight : Nat
  sensError : Nat
  duty : Nat → Nat
  options : Nat → Nat
  data : Nat → Nat
  TIMSK : Nat
  TCNT0 : Nat
  PORTA : Nat
  PORTD : Nat
  clk : Nat

/-! ## Timer bank -/

/-- The C function `resetTimer(index)`. -/
def resetTimer (st : State) (index : Nat) : State :=
  if index < NUM_TIMERS then { st with timers := upd st.timers index st.timer }
  else st

/-- The 16-bit unsigned difference `now - snapshot`. -/
def timeDiff (now snapshot : Nat) : Nat :=
  (now % 65536 + 65536 - snapshot % 65536) % 65536

/-- The C function `getTimeDiff(index)`. -/
def getTimeDiff (st : State) (index : Nat) : Nat :=
  if index < NUM_TIMERS then timeDiff st.timer (st.timers index)
  else 0

/-- The tick interrupt `ISR(TIMER2_COMP_vect)`: `timer++` on a 16-bit counter. -/
def tickISR (st : State) : State :=
  { st with timer := (st.timer + 1) % 65536 }

/-! ## PWM interrupt -/

/-- The PWM interrupt `ISR(TIMER1_COMPA_vect)`.  The LED channels red, green,
blue are bits 0, 1, 2 of `PORTD`.  Here `n` is the counter after `pwmCycle++`,
`cycle` the counter after the wrap test and `portd0 .. portd3` the port after
the wrap block and after each of the three comparisons with the duty table. -/
def pwmISR (st : State) : State :=
  let n := (st.pwmCycle + 1) % 256
  let wrap := MAX_PWM < n
  let portd0 :=
    if wrap then
      setBit (setBit (setBit st.PORTD 0 (st.duty COL_RED)) 1 (st.duty COL_GRE)) 2
        (st.duty COL_BLU)
    else st.PORTD
  let cycle := if wrap then 0 else n
  let portd1 := if cycle = st.duty COL_RED then setBit portd0 0 0 else portd0
  let portd2 := if cycle = st.duty COL_GRE then setBit portd1 1 0 else portd1
  let portd3 := if cycle = st.duty COL_BLU then setBit portd2 2 0 else portd2
  { st with pwmCycle := cycle, PORTD := portd3 }

/-! ## Sensor transaction -/

/-- The hardware seen by one sensor transaction, indexed by observation
number: how many tick interrupts were served and how far `TCNT0` advanced
since the previous observation, the level of the sensor pin, and the content
of the uninitialised stack buffer `inputData`. -/
structure Hw where
  ticks : Nat → Nat
  tcntAdv : Nat → Nat
  sensIn : Nat → Bool
  stack : Nat → Nat

/-- Timing of timer 0 on the target: with the prescaler at 8 (`divider 8 ->
period 1us` in `initialize`, one count per 8 CPU cycles) fewer than 30 counts
pass between two consecutive observations made by a busy-wait loop. -/
def Hw.timely (hw : Hw) : Prop :=
  ∀ n, hw.tcntAdv n < 30

/-- The volatile part of the state that the busy-wait loops observe. -/
structure Poll where
  clk : Nat
  timer : Nat
  TCNT0 : Nat
deriving DecidableEq

/-- One observation of volatile hardware: time has passed since the previous
one, so the tick counter and `TCNT0` have advanced. -/
def observe (hw : Hw) (p : Poll) : Poll :=
  { clk := p.clk + 1
    timer := (p.timer + hw.ticks p.clk) % 65536
    TCNT0 := (p.TCNT0 + hw.tcntAdv p.clk) % 256 }

def State.poll (st : State) : Poll :=
  { clk := st.clk, timer := st.timer, TCNT0 := st.TCNT0 }

def State.setPoll (st : State) (p : Poll) : State :=
  { st with clk := p.clk, timer := p.timer, TCNT0 := p.TCNT0 }

/-- The request-pulse wait `while(getTimeDiff(T_WAIT) < 18);` with the snapshot of `T_WAIT`.  The
loop has no timeout of its own, hence the fuel. -/
def pulseWait (hw : Hw) (snapshot : Nat) : Nat → Poll → Option Poll
  | 0, _ => none
  | fuel + 1, p =>
    let p1 := observe hw p
    if timeDiff p1.timer snapshot < 18 then pulseWait hw snapshot fuel p1
    else some p1

/-- Outcome of one busy-wait loop: the loop condition became false (with the
current value of `timeout`), the timeout cap was reached, or the model ran
out of fuel. -/
inductive Wait where
  | done (timeout : Nat) (p : Poll)
  | abort (p : Poll)
  | fuel
deriving DecidableEq

/-- The first acknowledgement wait:
`while(TCNT0 < 30) { if(++timeout == SENS_TIMEOUT) return 2; if(SENS_IN) TCNT0 = 0; }`. -/
def waitAck1 (hw : Hw) : Nat → Nat → Poll → Wait
  | 0, _, _ => Wait.fuel
  | fuel + 1, timeout, p =>
    let p1 := observe hw p
    if p1.TCNT0 < 30 then
      let timeout1 := (timeout + 1) % 65536
      if timeout1 = SENS_TIMEOUT then Wait.abort p1
      else
        let s := hw.sensIn p1.clk
        let p2 := observe hw p1
        waitAck1 hw fuel timeout1 (if s then { p2 with TCNT0 := 0 } else p2)
    else Wait.done timeout p1

/-- The loops `while(SENS_IN) if(++timeout == SENS_TIMEOUT) return ..;`
(`level = true`) and `while(!SENS_IN) ...` (`level = false`): poll while the
pin reads `level`. -/
def waitWhile (hw : Hw) (level : Bool) : Nat → Nat → Poll → Wait
  | 0, _, _ => Wait.fuel
  | fuel + 1, timeout, p =>
    let s := hw.sensIn p.clk
    let p1 := observe hw p
    if s = level then
      let timeout1 := (timeout + 1) % 65536
      if timeout1 = SENS_TIMEOUT then Wait.abort p1
      else waitWhile hw level fuel timeout1 p1
    else Wait.done timeout p1

/-- Outcome of the sampling loop. -/
inductive Sample where
  | done (inputBits : List Nat) (p : Poll)
  | abort (code : Nat) (p : Poll)
  | fuel
deriving DecidableEq

/-- The sampling loop `while(index < 40) { ... }`. -/
def sampleLoop (hw : Hw) : Nat → Nat → Nat → Poll → List Nat → Sample
  | 0, _, _, _, _ => Sample.fuel
  | fuel + 1, index, timeout, p, inputBits =>
    if index < 40 then
      match waitWhile hw false SENS_TIMEOUT timeout p with
      | Wait.fuel => Sample.fuel
      | Wait.abort p1 => Sample.abort 5 p1
      | Wait.done timeout1 p1 =>
        match waitWhile hw true SENS_TIMEOUT timeout1 { p1 with TCNT0 := 0 } with
        | Wait.fuel => Sample.fuel
        | Wait.abort p2 => Sample.abort 6 p2
        | Wait.done timeout2 p2 =>
          let p3 := observe hw p2
          sampleLoop hw fuel (index + 1) timeout2 p3
            (if 50 < p3.TCNT0 then inputBits.set index 1 else inputBits)
    else Sample.done inputBits p

/-- The packing loop
`for(i = 0; i < 40; i++) setBit(inputData + i/8, 7 - i%8, inputBits[i]);`,
with `n` iterations left. -/
def packLoop (inputBits : List Nat) : Nat → Nat → (Nat → Nat) → (Nat → Nat)
  | 0, _, inputData => inputData
  | n + 1, i, inputData =>
    let index := i / 8
    let bit := 7 - i % 8
    packLoop inputBits n (i + 1)
      (upd inputData index (setBit (inputData index) bit (inputBits.getD i 0)))

/-- The byte produced by eight consecutive iterations of the packing loop on
one cell of `inputData`, from the eight bit values `v 0 .. v 7`. -/
def packByte (v : Nat → Nat) (r : Nat) : Nat :=
  setBit (setBit (setBit (setBit (setBit (setBit (setBit (setBit r 7 (v 0)) 6 (v 1)) 5 (v 2))
    4 (v 3)) 3 (v 4)) 2 (v 5)) 1 (v 6)) 0 (v 7)

/-- The packed buffer `inputData` after the packing loop, from its
uninitialised content `init`. -/
def packBits (inputBits : List Nat) (init : Nat → Nat) : Nat → Nat :=
  packLoop inputBits 40 0 init

/-- Checksum test and decoding (the tail of `handleSensor` after the packing
loop). -/
def decode (inputData : Nat → Nat) (st : State) : Nat × State :=
  let sum := (inputData 0 + inputData 1 + inputData 2 + inputData 3) % 256
  if sum ≠ inputData 4 then (7, st)
  else
    let d1 := upd st.data DAT_HYGRO_OK 1
    let hygro := ((inputData 0 <<< 8) + inputData 1) % 65536
    let d2 := upd d1 DAT_HYGRO ((hygro / 10) % 256)
    let d3 := if 5 ≤ hygro % 10 then upd d2 DAT_HYGRO ((d2 DAT_HYGRO + 1) % 256) else d2
    if readBit (inputData 2) 7 ≠ 0 then
      (SENS_OK, { st with data := upd d3 DAT_TEMP_OK 0 })
    else
      let d4 := upd d3 DAT_TEMP_OK 1
      let temp := ((inputData 2 <<< 8) + inputData 3) % 65536
      let d5 := upd d4 DAT_TEMP ((temp / 10) % 256)
      let d6 := if 5 ≤ temp % 10 then upd d5 DAT_TEMP ((d5 DAT_TEMP + 1) % 256) else d5
      (SENS_OK, { st with data := d6 })

/-- Outcome of the line transaction of `handleSensor` (request pulse,
acknowledgement, sampling): an early `return code`, or the 40 sampled bits. -/
inductive Tx where
  | abort (code : Nat) (st : State)
  | sampled (inputBits : List Nat) (st : State)

/-- The state carried by a transaction outcome. -/
def Tx.state : Tx → State
  | Tx.abort _ st => st
  | Tx.sampled _ st => st

/-- The state in which the request-pulse wait starts: after
`resetTimer(T_WAIT); setBit(SENS_OUT,1);`. -/
def pulseStart (st : State) : State :=
  let st1 := resetTimer st T_WAIT
  { st1 with PORTD := setBit st1.PORTD SENS_OUT 1 }

/-- The request-pulse wait of a call of `handleSensor` from `st`. -/
def pulseWaitOf (hw : Hw) (fuel : Nat) (st : State) : Option Poll :=
  pulseWait hw ((pulseStart st).timers T_WAIT) fuel (pulseStart st).poll

/-- The line transaction after the request-pulse wait, which ended with the
volatile state `p0`: PWM interrupt off, line released, the three
acknowledgement waits, the sampling loop, PWM interrupt on. -/
def afterPulse (hw : Hw) (st2 : State) (p0 : Poll) : Option Tx :=
  let st3 := { st2 with TIMSK := setBit st2.TIMSK OCIE1A 0 }
  let st4 := { st3 with PORTD := setBit st3.PORTD SENS_OUT 0 }
  match waitAck1 hw SENS_TIMEOUT 0 { p0 with TCNT0 := 0 } with
  | Wait.fuel => none
  | Wait.abort p => some (Tx.abort 2 (st4.setPoll p))
  | Wait.done timeout1 p1 =>
    match waitWhile hw false SENS_TIMEOUT timeout1 p1 with
    | Wait.fuel => none
    | Wait.abort p => some (Tx.abort 3 (st4.setPoll p))
    | Wait.done timeout2 p2 =>
      match waitWhile hw true SENS_TIMEOUT timeout2 p2 with
      | Wait.fuel => none
      | Wait.abort p => some (Tx.abort 4 (st4.setPoll p))
      | Wait.done _ p3 =>
        match sampleLoop hw 41 0 0 p3 (List.replicate 40 0) with
        | Sample.fuel => none
        | Sample.abort code p => some (Tx.abort code (st4.setPoll p))
        | Sample.done inputBits p =>
          let st5 := st4.setPoll p
          some (Tx.sampled inputBits { st5 with TIMSK := setBit st5.TIMSK OCIE1A 1 })

/-- The line transaction of `handleSensor`: from `resetTimer(T_WAIT)` to the
re-enabling of the PWM interrupt after the sampling loop.  The result is
`none` when the request-pulse wait does not finish within `fuel` polls. -/
def transaction (hw : Hw) (fuel : Nat) (st : State) : Option Tx :=
  match pulseWaitOf hw fuel st with
  | none => none
  | some p0 => afterPulse hw (pulseStart st) p0

/-- The buffer `inputData` after the packing loop of a call that sampled
`inputBits`; the uninitialised cells hold arbitrary bytes. -/
def inputDataOf (hw : Hw) (inputBits : List Nat) : Nat → Nat :=
  packBits inputBits (fun j => hw.stack j % 256)

/-- The C function `handleSensor()`: the returned code and the state it leaves. -/
def handleSensor (hw : Hw) (fuel : Nat) (st : State) : Option (Nat × State) :=
  if SENS_PERIOD < getTimeDiff st T_WAIT then
    match transaction hw fuel st with
    | none => none
    | some (Tx.abort code st1) => some (code, st1)
    | some (Tx.sampled inputBits st1) =>
      some (decode (inputDataOf hw inputBits) st1)
  else some (SENS_NOT_READ, st)

/-- The bits sampled by a call of `handleSensor` that got as far as the
packing loop. -/
def sampledBits (hw : Hw) (fuel : Nat) (st : State) : Option (List Nat) :=
  if SENS_PERIOD < getTimeDiff st T_WAIT then
    match transaction hw fuel st with
    | some (Tx.sampled inputBits _) => some inputBits
    | _ => none
  else none

/-- The code returned by `handleSensor`. -/
def retCode (hw : Hw) (fuel : Nat) (st : State) : Option Nat :=
  (handleSensor hw fuel st).map Prod.fst

/-! ## Sensor step of the main loop -/

/-- Lines `uint8_t retVal = handleSensor(); setBit(&TIMSK, OCIE1A, 1);` of
the main loop: the state in which `retVal` is examined. -/
def pollSensor (hw : Hw) (fuel : Nat) (st : State) : Option (Nat × State) :=
  match handleSensor hw fuel st with
  | none => none
  | some (retVal, st1) => some (retVal, { st1 with TIMSK := setBit st1.TIMSK OCIE1A 1 })

/-- The bookkeeping on `retVal` in the main loop. -/
def sensorUpdate (retVal : Nat) (st : State) : State :=
  if retVal = SENS_OK then { st with sensError := 0 }
  else if retVal ≠ SENS_NOT_READ then
    let st1 := { st with sensError := (st.sensError + 1) % 256 }
    if SENS_MAX_ERR < st1.sensError then
      { st1 with data := upd (upd st1.data DAT_HYGRO_OK 0) DAT_TEMP_OK 0 }
    else st1
  else st

/-- The sensor step of the main loop (from the call of `handleSensor` to the
end of the error bookkeeping). -/
def sensorStep (hw : Hw) (fuel : Nat) (st : State) : Option State :=
  match pollSensor hw fuel st with
  | none => none
  | some (retVal, st1) => some (sensorUpdate retVal st1)

/-! ## Test harness: a line driver -/

/-- The 40 bits of a payload, most significant bit of byte 0 first. -/
def bitsOfBytes (payload : List Nat) : List Nat :=
  payload.flatMap (fun b => (List.range 8).map (fun k => b / 2 ^ (7 - k) % 2))

/-- A sensor that answers at once and sends `bits`: the tick counter jumps by
18 per observation, the acknowledgement takes one poll per stage, and bit `i`
occupies observations `4 + 3 i .. 6 + 3 i` (line high, line low, then the
read of `TCNT0`, which shows 60 for a one and 20 for a zero). -/
def lineDriver (bits : List Nat) : Hw where
  ticks := fun _ => 18
  tcntAdv := fun n =>
    if n = 1 then 30
    else if 4 ≤ n ∧ (n - 4) % 3 = 2 then (if bits.getD ((n - 4) / 3) 0 = 0 then 20 else 60)
    else 0
  sensIn := fun n => decide (n = 2 ∨ (4 ≤ n ∧ (n - 4) % 3 = 0))
  stack := fun _ => 170

/-- A state in which the sensor period has elapsed: `timer = 40000`, all
snapshots 0, previous readings 33 °C / 55 %, both valid. -/
def dueState : State where
  timer := 40000
  timers := fun _ => 0
  clockCycle := 0
  pwmCycle := 0
  seconds := 0
  lastLight := 0
  sensError := 0
  duty := fun _ => 0
  options := fun _ => 0
  data := upd (upd (upd (upd (fun _ => 0) DAT_TEMP 33) DAT_TEMP_OK 1) DAT_HYGRO 55) DAT_HYGRO_OK 1
  TIMSK := 0
  TCNT0 := 0
  PORTA := 0
  PORTD := 0
  clk := 0

/-- A state at the end of a PWM cycle (counter 100, so that the next
interrupt wraps) with all three duties at `MAX_PWM` and the LEDs off. -/
def fullOnState : State :=
  { dueState with pwmCycle := 100, duty := fun _ => 100 }

/-- A state like `fullOnState` with the red duty at 30. -/
def dimState : State :=
  { dueState with pwmCycle := 100, duty := fun j => if j = 0 then 30 else 100 }

/-- A sensor that never answers: the line stays low, `TCNT0` advances by one
per observation. -/
def deadLine : Hw where
  ticks := fun _ => 18
  tcntAdv := fun _ => 1
  sensIn := fun _ => false
  stack := fun _ => 0

/-! ## Further constants (`terraControl.h`, `main.c`) -/

def OPT_NONE : Nat := 0
def OPT_LIGHT : Nat := 1
def OPT_DAY_HOUR : Nat := 2
def OPT_DAY_MIN : Nat := 3
def OPT_DAY_RED : Nat := 4
def OPT_DAY_GRE : Nat := 5
def OPT_DAY_BLU : Nat := 6
def OPT_DAY_TEMP : Nat := 7
def OPT_NIGHT_HOUR : Nat := 8
def OPT_NIGHT_MIN : Nat := 9
def OPT_NIGHT_RED : Nat := 10
def OPT_NIGHT_GRE : Nat := 11
def OPT_NIGHT_BLU : Nat := 12
def OPT_NIGHT_TEMP : Nat := 13
def OPT_HOUR : Nat := 14
def OPT_MIN : Nat := 15
def OPT_CLOCK : Nat := 16

def MAX_HOUR : Nat := 23
def MAX_MIN : Nat := 59
def MAX_SEC : Nat := 59

def OPT_LIGHT_AUTO : Nat := 0
def OPT_LIGHT_ON : Nat := 1
def OPT_LIGHT_OFF : Nat := 2

def DAYTIME_DAY : Nat := 0
def DAYTIME_NIGHT : Nat := 1

def CLOCK_PERIOD : Nat := 900

def LIGHT_OFF : Nat := 0
def LIGHT_ON : Nat := 1
def LIGHT_DAY : Nat := 2
def LIGHT_NIGHT : Nat := 3

/-- Bit number of the heater pin in `PORTA` (`HEAT` is `&PORTA,0`). -/
def HEAT : Nat := 0

/-! ## Clock, light and heater -/

/-- The value of `seconds` after `seconds++` and the carry test of
`handleTime`. -/
def secondsAfter (seconds : Nat) : Nat :=
  let sec1 := (seconds + 1) % 256
  if MAX_SEC < sec1 then (sec1 + 256 - MAX_SEC) % 256 else sec1

/-- The array `options[]` after the three carry tests of `handleTime`
(seconds into minutes, minutes into hours, hours back to 0), from the value
of `seconds` before `seconds++`. -/
def carryClock (seconds : Nat) (options : Nat → Nat) : Nat → Nat :=
  let sec1 := (seconds + 1) % 256
  let opt1 :=
    if MAX_SEC < sec1 then upd options OPT_MIN ((options OPT_MIN + 1) % 256)
    else options
  let opt2 :=
    if MAX_MIN < opt1 OPT_MIN then
      upd (upd opt1 OPT_MIN 0) OPT_HOUR ((opt1 OPT_HOUR + 1) % 256)
    else opt1
  if MAX_HOUR < opt2 OPT_HOUR then upd opt2 OPT_HOUR 0 else opt2

/-- The value stored into `data[DAT_DAYTIME]` by `handleTime`, from the
16-bit minute counts `minutesDay`, `minutesNight` and `minutesCurrent`. -/
def daytimeOf (options : Nat → Nat) : Nat :=
  let minutesDay := (options OPT_DAY_HOUR * 60 + options OPT_DAY_MIN) % 65536
  let minutesNight := (options OPT_NIGHT_HOUR * 60 + options OPT_NIGHT_MIN) % 65536
  let minutesCurrent := (options OPT_HOUR * 60 + options OPT_MIN) % 65536
  if minutesDay < minutesNight then
    (if minutesDay ≤ minutesCurrent ∧ minutesCurrent < minutesNight then DAYTIME_DAY
      else DAYTIME_NIGHT)
  else
    (if minutesNight ≤ minutesCurrent ∧ minutesCurrent < minutesDay then DAYTIME_NIGHT
      else DAYTIME_DAY)

/-- Membership of the minute count `c` in the cyclic half-open interval
from `d` (start of day) to `n` (start of night): `d <= c < n` if `d < n`,
`c >= d` or `c < n` if `d > n`, always if `d = n`. -/
def inDayInterval (d n c : Nat) : Prop :=
  (d < n ∧ d ≤ c ∧ c < n) ∨ (n < d ∧ (d ≤ c ∨ c < n)) ∨ d = n

/-- The C function `handleTime()`. -/
def handleTime (st : State) : State :=
  let st0 := { st with clockCycle := (CLOCK_PERIOD + st.options OPT_CLOCK) % 65536 }
  if st0.clockCycle ≤ getTimeDiff st0 T_CLOCK then
    let st1 := resetTimer st0 T_CLOCK
    let options1 := carryClock st1.seconds st1.options
    { st1 with
      seconds := secondsAfter st1.seconds
      options := options1
      data := upd st1.data DAT_DAYTIME (daytimeOf options1) }
  else st0

/-- The local variable `light` of `handleLight` after the selection chain. -/
def lightOf (st : State) : Nat :=
  if OPT_DAY_RED ≤ st.data DAT_OPTION ∧ st.data DAT_OPTION ≤ OPT_DAY_BLU then LIGHT_DAY
  else if OPT_NIGHT_RED ≤ st.data DAT_OPTION ∧ st.data DAT_OPTION ≤ OPT_NIGHT_BLU then
    LIGHT_NIGHT
  else if st.options OPT_LIGHT = OPT_LIGHT_ON then LIGHT_ON
  else if st.options OPT_LIGHT = OPT_LIGHT_AUTO then
    (if st.data DAT_DAYTIME = DAYTIME_DAY then LIGHT_DAY else LIGHT_NIGHT)
  else LIGHT_OFF

/-- The local variable `lightOption` of `handleLight` after the selection
chain. -/
def lightOptionOf (st : State) : Nat :=
  if OPT_DAY_RED ≤ st.data DAT_OPTION ∧ st.data DAT_OPTION ≤ OPT_DAY_BLU then 1
  else if OPT_NIGHT_RED ≤ st.data DAT_OPTION ∧ st.data DAT_OPTION ≤ OPT_NIGHT_BLU then 1
  else 0

/-- The three stores `duty[COL_RED] = r; duty[COL_GRE] = g; duty[COL_BLU] = b;`. -/
def setDuty (duty : Nat → Nat) (r g b : Nat) : Nat → Nat :=
  upd (upd (upd duty COL_RED r) COL_GRE g) COL_BLU b

/-- The C function `handleLight()`. -/
def handleLight (st : State) : State :=
  let light := lightOf st
  if lightOptionOf st ≠ 0 ∨ light ≠ st.lastLight then
    let st1 := { st with lastLight := light }
    let dayDuty :=
      setDuty st1.duty (st1.options OPT_DAY_RED) (st1.options OPT_DAY_GRE)
        (st1.options OPT_DAY_BLU)
    let nightDuty :=
      setDuty st1.duty (st1.options OPT_NIGHT_RED) (st1.options OPT_NIGHT_GRE)
        (st1.options OPT_NIGHT_BLU)
    if light = LIGHT_OFF then { st1 with duty := setDuty st1.duty 0 0 0 }
    else if light = LIGHT_ON then { st1 with duty := setDuty st1.duty MAX_PWM MAX_PWM MAX_PWM }
    else if light = LIGHT_DAY then { st1 with duty := dayDuty }
    else if light = LIGHT_NIGHT then { st1 with duty := nightDuty }
    else st1
  else st

/-- The C function `handleHeater()`. -/
def handleHeater (st : State) : State :=
  let temp :=
    if st.data DAT_DAYTIME = DAYTIME_NIGHT then st.options OPT_NIGHT_TEMP
    else st.options OPT_DAY_TEMP
  if st.data DAT_TEMP_OK = 0 ∨ temp < st.data DAT_TEMP then
    { st with PORTA := setBit st.PORTA HEAT 0 }
  else { st with PORTA := setBit st.PORTA HEAT 1 }

/-! ## Counting loop iterations -/

/-- Number of executions of the body of the loop `waitWhile`: one for each
poll that found the pin at `level`, the aborting one included. -/
def waitWhileIters (hw : Hw) (level : Bool) : Nat → Nat → Poll → Nat
  | 0, _, _ => 0
  | fuel + 1, timeout, p =>
    let s := hw.sensIn p.clk
    let p1 := observe hw p
    if s = level then
      let timeout1 := (timeout + 1) % 65536
      if timeout1 = SENS_TIMEOUT then 1
      else 1 + waitWhileIters hw level fuel timeout1 p1
    else 0

/-- Number of executions of the body of the loop `waitAck1`, the aborting one
included. -/
def waitAck1Iters (hw : Hw) : Nat → Nat → Poll → Nat
  | 0, _, _ => 0
  | fuel + 1, timeout, p =>
    let p1 := observe hw p
    if p1.TCNT0 < 30 then
      let timeout1 := (timeout + 1) % 65536
      if timeout1 = SENS_TIMEOUT then 1
      else
        let s := hw.sensIn p1.clk
        let p2 := observe hw p1
        1 + waitAck1Iters hw fuel timeout1 (if s then { p2 with TCNT0 := 0 } else p2)
    else 0

/-- Polling iterations of the three acknowledgement waits of one transaction,
in order; a stage that is not reached counts 0. -/
def ackIters (hw : Hw) (p0 : Poll) : Nat × Nat × Nat :=
  let n1 := waitAck1Iters hw SENS_TIMEOUT 0 { p0 with TCNT0 := 0 }
  match waitAck1 hw SENS_TIMEOUT 0 { p0 with TCNT0 := 0 } with
  | Wait.done timeout1 p1 =>
    let n2 := waitWhileIters hw false SENS_TIMEOUT timeout1 p1
    match waitWhile hw false SENS_TIMEOUT timeout1 p1 with
    | Wait.done timeout2 p2 => (n1, n2, waitWhileIters hw true SENS_TIMEOUT timeout2 p2)
    | _ => (n1, n2, 0)
  | _ => (n1, 0, 0)

/-- Polling iterations of the inner waits of the sampling loop, summed over
the bit slots. -/
def sampleIters (hw : Hw) : Nat → Nat → Nat → Poll → Nat
  | 0, _, _, _ => 0
  | fuel + 1, index, timeout, p =>
    if index < 40 then
      let n1 := waitWhileIters hw false SENS_TIMEOUT timeout p
      match waitWhile hw false SENS_TIMEOUT timeout p with
      | Wait.done timeout1 p1 =>
        let n2 := waitWhileIters hw true SENS_TIMEOUT timeout1 { p1 with TCNT0 := 0 }
        match waitWhile hw true SENS_TIMEOUT timeout1 { p1 with TCNT0 := 0 } with
        | Wait.done timeout2 p2 =>
          n1 + n2 + sampleIters hw fuel (index + 1) timeout2 (observe hw p2)
        | _ => n1 + n2
      | _ => n1
    else 0

/-- The volatile state in which the sampling loop of a transaction starts, if
the acknowledgement phase gets that far. -/
def ackEnd (hw : Hw) (p0 : Poll) : Option Poll :=
  match waitAck1 hw SENS_TIMEOUT 0 { p0 with TCNT0 := 0 } with
  | Wait.done timeout1 p1 =>
    match waitWhile hw false SENS_TIMEOUT timeout1 p1 with
    | Wait.done timeout2 p2 =>
      match waitWhile hw true SENS_TIMEOUT timeout2 p2 with
      | Wait.done _ p3 => some p3
      | _ => none
    | _ => none
  | _ => none

/-! ## Further test environments -/

/-- A line stuck high while `TCNT0` jumps by 30 counts per observation, faster
than timer 0 of the target counts. -/
def stuckHighFast : Hw where
  ticks := fun _ => 18
  tcntAdv := fun _ => 30
  sensIn := fun _ => true
  stack := fun _ => 0

/-- A state whose options were loaded from a memory holding 200 in every
cell, with the option cursor on the red day colour. -/
def rawOptionsState : State :=
  { dueState with options := fun _ => 200, data := upd dueState.data DAT_OPTION OPT_DAY_RED }

/-- A state at 07:59:59 with day from 08:00 to 22:00, clock trim 109 and
1009 ticks elapsed on `T_CLOCK`; the stored daytime is night. -/
def clockState : State :=
  { dueState with
    timer := 1009
    seconds := 59
    options := fun i =>
      if i = OPT_DAY_HOUR then 8 else if i = OPT_NIGHT_HOUR then 22
      else if i = OPT_HOUR then 7 else if i = OPT_MIN then 59
      else if i = OPT_CLOCK then 109 else 0
    data := upd dueState.data DAT_DAYTIME DAYTIME_NIGHT }

/-- A state with the default colour options (day 25, 25, 0; night 15, 7, 0),
automatic light mode, daytime day and the light off so far. -/
def defaultLightState : State :=
  { dueState with
    lastLight := LIGHT_OFF
    options := fun i =>
      if i = OPT_DAY_RED ∨ i = OPT_DAY_GRE then 25 else if i = OPT_NIGHT_RED then 15
      else if i = OPT_NIGHT_GRE then 7 else 0 }

/-! ## Bit helpers -/

theorem readBit_eq (r b : Nat) : readBit r b = r / 2 ^ b % 2 := by
  unfold readBit
  rw [Nat.shiftRight_eq_div_pow, Nat.and_one_is_mod]

theorem readBit_toNat (r b : Nat) : readBit r b = (r.testBit b).toNat := by
  rw [readBit_eq, Nat.toNat_testBit]

theorem setBit_lt (r b v : Nat) : setBit r b v < 256 := by
  unfold setBit
  split <;> exact Nat.mod_lt _ (by norm_num)

theorem testBit_setBit (r b v c : Nat) (hb : b < 8) :
    (setBit r b v).testBit c
      = (decide (c < 8) && (if c = b then decide (v ≠ 0) else r.testBit c)) := by
  unfold setBit
  have h1 : (1 <<< b) % 65536 = 2 ^ b := by
    rw [Nat.one_shiftLeft]
    apply Nat.mod_eq_of_lt
    calc 2 ^ b < 2 ^ 16 := Nat.pow_lt_pow_right (by norm_num) (by omega)
      _ = 65536 := by norm_num
  rw [h1]
  have e256 : (256 : Nat) = 2 ^ 8 := by norm_num
  have e65535 : (65535 : Nat) = 2 ^ 16 - 1 := by norm_num
  split
  · rename_i hv
    rw [e256, Nat.testBit_mod_two_pow, Nat.testBit_and, Nat.testBit_xor, e65535,
      Nat.testBit_two_pow_sub_one, Nat.testBit_two_pow]
    by_cases hc : c < 8
    · by_cases hcb : c = b
      · subst hcb; simp [hv, hc]; omega
      · have hbc : ¬ b = c := fun h => hcb h.symm
        have h16 : c < 16 := by omega
        simp [hc, hcb, hbc, h16]
    · simp [hc]
  · rename_i hv
    rw [e256, Nat.testBit_mod_two_pow, Nat.testBit_or, Nat.testBit_two_pow]
    by_cases hc : c < 8
    · by_cases hcb : c = b
      · subst hcb; simp [hv, hc]
      · have hbc : ¬ b = c := fun h => hcb h.symm
        simp [hc, hcb, hbc]
    · simp [hc]

/-- Reading bit `c` after `setBit r b v`: the written value at `c = b`, the
old bit elsewhere. -/
theorem readBit_setBit (r b v c : Nat) (hb : b < 8) (hc : c < 8) :
    readBit (setBit r b v) c = if c = b then (if v = 0 then 0 else 1) else readBit r c := by
  rw [readBit_toNat, testBit_setBit r b v c hb, readBit_toNat]
  by_cases hcb : c = b
  · subst hcb
    by_cases hv : v = 0 <;> simp [hc, hv]
  · simp [hc, hcb]

/-- A byte is the weighted sum of its eight bits. -/
theorem byte_eq_bits (r : Nat) (hr : r < 256) :
    r = readBit r 7 * 128 + readBit r 6 * 64 + readBit r 5 * 32 + readBit r 4 * 16
      + readBit r 3 * 8 + readBit r 2 * 4 + readBit r 1 * 2 + readBit r 0 := by
  simp only [readBit_eq]
  norm_num
  omega

theorem packByte_lt (v : Nat → Nat) (r : Nat) : packByte v r < 256 := by
  unfold packByte
  exact setBit_lt _ _ _

/-- Eight iterations of the packing loop overwrite the cell completely. -/
theorem packByte_eq (v : Nat → Nat) (r : Nat) (hv : ∀ k, k < 8 → v k ≤ 1) :
    packByte v r = v 0 * 128 + v 1 * 64 + v 2 * 32 + v 3 * 16 + v 4 * 8 + v 5 * 4
      + v 6 * 2 + v 7 := by
  have hbit : ∀ k, k < 8 → (if v k = 0 then 0 else 1) = v k := by
    intro k hk
    have := hv k hk
    split <;> omega
  rw [byte_eq_bits (packByte v r) (packByte_lt v r)]
  unfold packByte
  simp only [readBit_setBit, Nat.reduceLT, Nat.reduceEqDiff, if_true, if_false,
    OfNat.ofNat_ne_zero, OfNat.zero_ne_ofNat, OfNat.ofNat_ne_one, OfNat.one_ne_ofNat,
    one_ne_zero, zero_ne_one]
  rw [hbit 0 (by norm_num), hbit 1 (by norm_num), hbit 2 (by norm_num), hbit 3 (by norm_num),
    hbit 4 (by norm_num), hbit 5 (by norm_num), hbit 6 (by norm_num), hbit 7 (by norm_num)]

/-- Cell `j` of the packed buffer is `packByte` of bits `8 j .. 8 j + 7`. -/
theorem packBits_cell (s : List Nat) (init : Nat → Nat) (j : Nat) (hj : j < 5) :
    packBits s init j = packByte (fun k => s.getD (8 * j + k) 0) (init j) := by
  interval_cases j <;> rfl

/-! ## The busy-wait loops never outrun their timeout counter -/

theorem waitWhile_total (hw : Hw) (level : Bool) :
    ∀ (fuel timeout : Nat) (p : Poll), timeout < SENS_TIMEOUT → SENS_TIMEOUT ≤ timeout + fuel →
      (∃ p1, waitWhile hw level fuel timeout p = Wait.abort p1) ∨
      (∃ t1 p1, waitWhile hw level fuel timeout p = Wait.done t1 p1 ∧ t1 < SENS_TIMEOUT) := by
  intro fuel
  induction fuel with
  | zero => intro timeout p h1 h2; omega
  | succ n ih =>
    intro timeout p h1 h2
    unfold waitWhile
    simp only []
    by_cases hs : hw.sensIn p.clk = level
    · rw [if_pos hs]
      have hmod : (timeout + 1) % 65536 = timeout + 1 := by
        apply Nat.mod_eq_of_lt; unfold SENS_TIMEOUT at h1; omega
      rw [hmod]
      by_cases ht : timeout + 1 = SENS_TIMEOUT
      · rw [if_pos ht]; exact Or.inl ⟨_, rfl⟩
      · rw [if_neg ht]
        exact ih (timeout + 1) _ (by omega) (by omega)
    · rw [if_neg hs]; exact Or.inr ⟨_, _, rfl, h1⟩

theorem waitAck1_total (hw : Hw) :
    ∀ (fuel timeout : Nat) (p : Poll), timeout < SENS_TIMEOUT → SENS_TIMEOUT ≤ timeout + fuel →
      (∃ p1, waitAck1 hw fuel timeout p = Wait.abort p1) ∨
      (∃ t1 p1, waitAck1 hw fuel timeout p = Wait.done t1 p1 ∧ t1 < SENS_TIMEOUT) := by
  intro fuel
  induction fuel with
  | zero => intro timeout p h1 h2; omega
  | succ n ih =>
    intro timeout p h1 h2
    unfold waitAck1
    simp only []
    by_cases hs : (observe hw p).TCNT0 < 30
    · rw [if_pos hs]
      have hmod : (timeout + 1) % 65536 = timeout + 1 := by
        apply Nat.mod_eq_of_lt; unfold SENS_TIMEOUT at h1; omega
      rw [hmod]
      by_cases ht : timeout + 1 = SENS_TIMEOUT
      · rw [if_pos ht]; exact Or.inl ⟨_, rfl⟩
      · rw [if_neg ht]
        exact ih (timeout + 1) _ (by omega) (by omega)
    · rw [if_neg hs]; exact Or.inr ⟨_, _, rfl, h1⟩

theorem sampleLoop_total (hw : Hw) :
    ∀ (fuel index timeout : Nat) (p : Poll) (inputBits : List Nat),
      timeout < SENS_TIMEOUT → 0 < fuel → 40 < index + fuel →
      (∃ code p1, sampleLoop hw fuel index timeout p inputBits = Sample.abort code p1 ∧
        (code = 5 ∨ code = 6)) ∨
      (∃ bits p1, sampleLoop hw fuel index timeout p inputBits = Sample.done bits p1) := by
  intro fuel
  induction fuel with
  | zero =>
    intro index timeout p inputBits h1 h0 h2
    omega
  | succ n ih =>
    intro index timeout p inputBits h1 _ h2
    unfold sampleLoop
    by_cases hi : index < 40
    · rw [if_pos hi]
      rcases waitWhile_total hw false SENS_TIMEOUT timeout p h1 (by omega) with
        ⟨p1, e1⟩ | ⟨t1, p1, e1, ht1⟩
      · rw [e1]; exact Or.inl ⟨5, p1, rfl, Or.inl rfl⟩
      · rw [e1]
        simp only []
        rcases waitWhile_total hw true SENS_TIMEOUT t1 { p1 with TCNT0 := 0 } ht1 (by omega) with
          ⟨p2, e2⟩ | ⟨t2, p2, e2, ht2⟩
        · rw [e2]; exact Or.inl ⟨6, p2, rfl, Or.inr rfl⟩
        · rw [e2]
          exact ih (index + 1) t2 _ _ ht2 (by omega) (by omega)
    · rw [if_neg hi]; exact Or.inr ⟨_, _, rfl⟩

/-- After the request pulse the transaction always comes to an end: with an
early return 2..6, which leaves the state as it was up to the volatile part,
the PWM interrupt enable and the sensor output pin, or with sampled bits and
the PWM interrupt enabled again. -/
theorem afterPulse_cases (hw : Hw) (st2 : State) (p0 : Poll) :
    ∃ tx, afterPulse hw st2 p0 = some tx ∧
      tx.state.data = st2.data ∧ tx.state.sensError = st2.sensError ∧
      ((∃ code, ∃ st1, tx = Tx.abort code st1 ∧ 2 ≤ code ∧ code ≤ 6) ∨
       (∃ bits, ∃ st1, tx = Tx.sampled bits st1 ∧ readBit st1.TIMSK OCIE1A = 1)) := by
  unfold afterPulse
  simp only []
  rcases waitAck1_total hw SENS_TIMEOUT 0 { p0 with TCNT0 := 0 } (by decide) (by omega) with
    ⟨p1, e1⟩ | ⟨t1, p1, e1, ht1⟩
  · rw [e1]
    exact ⟨_, rfl, rfl, rfl, Or.inl ⟨2, _, rfl, by norm_num, by norm_num⟩⟩
  · rw [e1]
    simp only []
    rcases waitWhile_total hw false SENS_TIMEOUT t1 p1 ht1 (by omega) with
      ⟨p2, e2⟩ | ⟨t2, p2, e2, ht2⟩
    · rw [e2]
      exact ⟨_, rfl, rfl, rfl, Or.inl ⟨3, _, rfl, by norm_num, by norm_num⟩⟩
    · rw [e2]
      simp only []
      rcases waitWhile_total hw true SENS_TIMEOUT t2 p2 ht2 (by omega) with
        ⟨p3, e3⟩ | ⟨t3, p3, e3, _⟩
      · rw [e3]
        exact ⟨_, rfl, rfl, rfl, Or.inl ⟨4, _, rfl, by norm_num, by norm_num⟩⟩
      · rw [e3]
        simp only []
        rcases sampleLoop_total hw 41 0 0 p3 (List.replicate 40 0) (by decide) (by omega) (by omega) with
          ⟨code, p4, e4, hcode⟩ | ⟨bits, p4, e4⟩
        · rw [e4]
          exact ⟨_, rfl, rfl, rfl, Or.inl ⟨code, _, rfl, by omega, by omega⟩⟩
        · rw [e4]
          refine ⟨_, rfl, rfl, rfl, Or.inr ⟨bits, _, rfl, ?_⟩⟩
          simp only []
          rw [readBit_setBit _ _ _ _ (by decide) (by decide)]
          simp


/-! ## Checksum test and decoding -/

theorem inputDataOf_lt (hw : Hw) (bits : List Nat) (j : Nat) (hj : j < 5) :
    inputDataOf hw bits j < 256 := by
  unfold inputDataOf
  rw [packBits_cell _ _ _ hj]
  exact packByte_lt _ _

theorem decode_mismatch (b : Nat → Nat) (st : State)
    (h : (b 0 + b 1 + b 2 + b 3) % 256 ≠ b 4) : decode b st = (7, st) := by
  unfold decode
  simp only []
  rw [if_pos h]

/-- With a valid checksum the decoder returns `SENS_OK`, marks the humidity
valid and stores the rounded humidity as an 8-bit value; the temperature is
stored and marked valid when bit 7 of byte 2 is clear, and only marked invalid
when it is set.  Nothing else changes. -/
theorem decode_valid (b : Nat → Nat) (st : State)
    (h : (b 0 + b 1 + b 2 + b 3) % 256 = b 4)
    (h0 : b 0 < 256) (h1 : b 1 < 256) (h2 : b 2 < 256) (h3 : b 3 < 256) :
    (decode b st).1 = SENS_OK ∧
    (decode b st).2.sensError = st.sensError ∧
    (decode b st).2.TIMSK = st.TIMSK ∧
    (decode b st).2.data DAT_OPTION = st.data DAT_OPTION ∧
    (decode b st).2.data DAT_DAYTIME = st.data DAT_DAYTIME ∧
    (decode b st).2.data DAT_HYGRO_OK = 1 ∧
    (decode b st).2.data DAT_HYGRO = (256 * b 0 + b 1 + 5) / 10 % 256 ∧
    (decode b st).2.data DAT_TEMP_OK = (if 128 ≤ b 2 then 0 else 1) ∧
    (decode b st).2.data DAT_TEMP
      = (if 128 ≤ b 2 then st.data DAT_TEMP else (256 * b 2 + b 3 + 5) / 10 % 256) := by
  have hs : ¬ (b 0 + b 1 + b 2 + b 3) % 256 ≠ b 4 := fun hne => hne h
  have hr : readBit (b 2) 7 = b 2 / 128 := by
    rw [readBit_eq]; norm_num; omega
  have hH : ((b 0 <<< 8) + b 1) % 65536 = 256 * b 0 + b 1 := by
    rw [Nat.shiftLeft_eq]; norm_num; omega
  have hT : ((b 2 <<< 8) + b 3) % 65536 = 256 * b 2 + b 3 := by
    rw [Nat.shiftLeft_eq]; norm_num; omega
  have hround : ∀ raw : Nat,
      (if 5 ≤ raw % 10 then (raw / 10 % 256 + 1) % 256 else raw / 10 % 256)
        = (raw + 5) / 10 % 256 := by
    intro raw; split <;> omega
  have hH2 := hround (256 * b 0 + b 1)
  have hT2 := hround (256 * b 2 + b 3)
  unfold decode
  simp only []
  rw [if_neg hs, hr, hH, hT]
  by_cases htop : 128 ≤ b 2
  · have hne : b 2 / 128 ≠ 0 := by omega
    rw [if_pos hne]
    simp only [if_pos htop]
    by_cases h5 : 5 ≤ (256 * b 0 + b 1) % 10
    · rw [if_pos h5] at hH2
      simp [upd, DAT_OPTION, DAT_TEMP, DAT_TEMP_OK, DAT_HYGRO, DAT_HYGRO_OK, DAT_DAYTIME, h5,
        hH2]
    · rw [if_neg h5] at hH2
      simp [upd, DAT_OPTION, DAT_TEMP, DAT_TEMP_OK, DAT_HYGRO, DAT_HYGRO_OK, DAT_DAYTIME, h5,
        hH2]
  · have hne : ¬ b 2 / 128 ≠ 0 := by omega
    rw [if_neg hne]
    simp only [if_neg htop]
    by_cases h5 : 5 ≤ (256 * b 0 + b 1) % 10 <;> by_cases t5 : 5 ≤ (256 * b 2 + b 3) % 10
    · rw [if_pos h5] at hH2; rw [if_pos t5] at hT2
      simp [upd, DAT_OPTION, DAT_TEMP, DAT_TEMP_OK, DAT_HYGRO, DAT_HYGRO_OK, DAT_DAYTIME, h5, t5,
        hH2, hT2]
    · rw [if_pos h5] at hH2; rw [if_neg t5] at hT2
      simp [upd, DAT_OPTION, DAT_TEMP, DAT_TEMP_OK, DAT_HYGRO, DAT_HYGRO_OK, DAT_DAYTIME, h5, t5,
        hH2, hT2]
    · rw [if_neg h5] at hH2; rw [if_pos t5] at hT2
      simp [upd, DAT_OPTION, DAT_TEMP, DAT_TEMP_OK, DAT_HYGRO, DAT_HYGRO_OK, DAT_DAYTIME, h5, t5,
        hH2, hT2]
    · rw [if_neg h5] at hH2; rw [if_neg t5] at hT2
      simp [upd, DAT_OPTION, DAT_TEMP, DAT_TEMP_OK, DAT_HYGRO, DAT_HYGRO_OK, DAT_DAYTIME, h5, t5,
        hH2, hT2]

/-! ## `handleSensor` -/

theorem pulseStart_frame (st : State) :
    (pulseStart st).data = st.data ∧ (pulseStart st).sensError = st.sensError := by
  unfold pulseStart resetTimer
  split <;> exact ⟨rfl, rfl⟩

/-- Every outcome of the line transaction leaves `data[]` and `sensError`
alone; an early return carries a code 2..6, sampled bits come with the PWM
interrupt enabled. -/
theorem transaction_cases (hw : Hw) (fuel : Nat) (st : State) (tx : Tx)
    (h : transaction hw fuel st = some tx) :
    tx.state.data = st.data ∧ tx.state.sensError = st.sensError ∧
      ((∃ code, ∃ st1, tx = Tx.abort code st1 ∧ 2 ≤ code ∧ code ≤ 6) ∨
       (∃ bits, ∃ st1, tx = Tx.sampled bits st1 ∧ readBit st1.TIMSK OCIE1A = 1)) := by
  unfold transaction at h
  cases hp : pulseWaitOf hw fuel st with
  | none => rw [hp] at h; exact absurd h (by simp)
  | some p0 =>
    rw [hp] at h
    simp only [] at h
    obtain ⟨tx1, e1, hd, hs, hc⟩ := afterPulse_cases hw (pulseStart st) p0
    rw [e1] at h
    have htx : tx1 = tx := Option.some.inj h
    subst htx
    exact ⟨hd.trans (pulseStart_frame st).1, hs.trans (pulseStart_frame st).2, hc⟩

/-- The transaction returns exactly when its request-pulse wait does. -/
theorem transaction_isSome (hw : Hw) (fuel : Nat) (st : State) :
    (transaction hw fuel st).isSome = (pulseWaitOf hw fuel st).isSome := by
  unfold transaction
  cases hp : pulseWaitOf hw fuel st with
  | none => rfl
  | some p0 =>
    obtain ⟨tx1, e1, _⟩ := afterPulse_cases hw (pulseStart st) p0
    simp only [e1, Option.isSome_some]

theorem handleSensor_notDue (hw : Hw) (fuel : Nat) (st : State)
    (h : ¬ SENS_PERIOD < getTimeDiff st T_WAIT) :
    handleSensor hw fuel st = some (SENS_NOT_READ, st) := by
  unfold handleSensor
  rw [if_neg h]

/-- A call that sampled `bits` returns what the decoder makes of them. -/
theorem handleSensor_sampled (hw : Hw) (fuel : Nat) (st : State) (bits : List Nat)
    (h : sampledBits hw fuel st = some bits) :
    ∃ st1, handleSensor hw fuel st = some (decode (inputDataOf hw bits) st1) ∧
      st1.data = st.data ∧ st1.sensError = st.sensError ∧ readBit st1.TIMSK OCIE1A = 1 := by
  unfold sampledBits at h
  by_cases hdue : SENS_PERIOD < getTimeDiff st T_WAIT
  · rw [if_pos hdue] at h
    cases htx : transaction hw fuel st with
    | none => rw [htx] at h; exact absurd h (by simp)
    | some tx =>
      rw [htx] at h
      obtain ⟨hd, hs, hc⟩ := transaction_cases hw fuel st tx htx
      cases tx with
      | abort code st1 => exact absurd h (by simp)
      | sampled bits1 st1 =>
        have hb : bits1 = bits := Option.some.inj h
        subst hb
        refine ⟨st1, ?_, hd, hs, ?_⟩
        · unfold handleSensor
          rw [if_pos hdue, htx]
        · rcases hc with ⟨c, s1, e, _⟩ | ⟨b2, s1, e, hbit⟩
          · exact absurd e (by simp)
          · have hst : st1 = s1 := by injection e
            rw [hst]; exact hbit
  · rw [if_neg hdue] at h; exact absurd h (by simp)

/-- The three ways in which `handleSensor` returns: not due, an early return
2..6 of the line transaction, or the decoder's verdict on sampled bits. -/
theorem handleSensor_cases (hw : Hw) (fuel : Nat) (st : State) (r : Nat) (st2 : State)
    (h : handleSensor hw fuel st = some (r, st2)) :
    (¬ SENS_PERIOD < getTimeDiff st T_WAIT ∧ r = SENS_NOT_READ ∧ st2 = st) ∨
    (SENS_PERIOD < getTimeDiff st T_WAIT ∧ 2 ≤ r ∧ r ≤ 6 ∧ st2.data = st.data ∧
      st2.sensError = st.sensError ∧ sampledBits hw fuel st = none) ∨
    (∃ bits st1, sampledBits hw fuel st = some bits ∧ st1.data = st.data ∧
      st1.sensError = st.sensError ∧ readBit st1.TIMSK OCIE1A = 1 ∧
      decode (inputDataOf hw bits) st1 = (r, st2)) := by
  by_cases hdue : SENS_PERIOD < getTimeDiff st T_WAIT
  · unfold handleSensor at h
    rw [if_pos hdue] at h
    cases htx : transaction hw fuel st with
    | none => rw [htx] at h; exact absurd h (by simp)
    | some tx =>
      rw [htx] at h
      obtain ⟨hd, hs, hc⟩ := transaction_cases hw fuel st tx htx
      cases tx with
      | abort code st1 =>
        simp only [Option.some.injEq, Prod.mk.injEq] at h
        obtain ⟨h1, h2⟩ := h
        subst h1; subst h2
        rcases hc with ⟨c, s1, e, hlo, hhi⟩ | ⟨b2, s1, e, _⟩
        · have hcode : code = c := by injection e
          subst hcode
          refine Or.inr (Or.inl ⟨hdue, hlo, hhi, hd, hs, ?_⟩)
          unfold sampledBits
          rw [if_pos hdue, htx]
        · exact absurd e (by simp)
      | sampled bits1 st1 =>
        simp only [Option.some.injEq] at h
        have hsb : sampledBits hw fuel st = some bits1 := by
          unfold sampledBits
          rw [if_pos hdue, htx]
        rcases hc with ⟨c, s1, e, _⟩ | ⟨b2, s1, e, hbit⟩
        · exact absurd e (by simp)
        · have hst : st1 = s1 := by injection e
          subst hst
          exact Or.inr (Or.inr ⟨bits1, st1, hsb, hd, hs, hbit, h⟩)
  · rw [handleSensor_notDue hw fuel st hdue] at h
    simp only [Option.some.injEq, Prod.mk.injEq] at h
    exact Or.inl ⟨hdue, h.1.symm, h.2.symm⟩

/-! ## Sensor claims -/

/-- Claim C1 (as amended): when a call of `handleSensor` sampled bits whose
packed payload `b 0 .. b 4` has a valid checksum and bit 7 of byte 2 clear, it
returns `SENS_OK`, sets both validity flags to 1 and stores the round-half-up
tenths `(256 b0 + b1 + 5) / 10` and `(256 b2 + b3 + 5) / 10` reduced modulo 256,
because `data[]` is 8 bits wide; the stored values are the exact quotients
whenever the raw values are at most 2554. -/
theorem handleSensor_decode_ok (hw : Hw) (fuel : Nat) (st : State) (bits : List Nat)
    (hbits : sampledBits hw fuel st = some bits)
    (hsum : inputDataOf hw bits 4
      = (inputDataOf hw bits 0 + inputDataOf hw bits 1 + inputDataOf hw bits 2
          + inputDataOf hw bits 3) % 256)
    (htop : inputDataOf hw bits 2 < 128) :
    ∃ st2, handleSensor hw fuel st = some (SENS_OK, st2) ∧
      st2.data DAT_HYGRO_OK = 1 ∧ st2.data DAT_TEMP_OK = 1 ∧
      st2.data DAT_HYGRO = (256 * inputDataOf hw bits 0 + inputDataOf hw bits 1 + 5) / 10 % 256 ∧
      st2.data DAT_TEMP = (256 * inputDataOf hw bits 2 + inputDataOf hw bits 3 + 5) / 10 % 256 ∧
      (256 * inputDataOf hw bits 0 + inputDataOf hw bits 1 ≤ 2554 →
        st2.data DAT_HYGRO = (256 * inputDataOf hw bits 0 + inputDataOf hw bits 1 + 5) / 10) ∧
      (256 * inputDataOf hw bits 2 + inputDataOf hw bits 3 ≤ 2554 →
        st2.data DAT_TEMP = (256 * inputDataOf hw bits 2 + inputDataOf hw bits 3 + 5) / 10) := by
  obtain ⟨st1, hcall, _, _, _⟩ := handleSensor_sampled hw fuel st bits hbits
  obtain ⟨hret, _, _, _, _, hhok, hh, htok, ht⟩ :=
    decode_valid (inputDataOf hw bits) st1 hsum.symm
      (inputDataOf_lt hw bits 0 (by norm_num)) (inputDataOf_lt hw bits 1 (by norm_num))
      (inputDataOf_lt hw bits 2 (by norm_num)) (inputDataOf_lt hw bits 3 (by norm_num))
  have hnot : ¬ 128 ≤ inputDataOf hw bits 2 := by omega
  rw [if_neg hnot] at htok ht
  refine ⟨(decode (inputDataOf hw bits) st1).2, ?_, hhok, htok, hh, ht, ?_, ?_⟩
  · rw [hcall, ← hret]
  · intro hle; rw [hh]; omega
  · intro hle; rw [ht]; omega

set_option maxRecDepth 100000 in
/-- Witness for C1: the payload `[0x01, 0x90, 0x00, 0xC8, 0x59]` yields
humidity 40 and temperature 20, both valid. -/
theorem handleSensor_decode_ok_witness :
    ∃ st2, handleSensor (lineDriver (bitsOfBytes [1, 144, 0, 200, 89])) 1 dueState
        = some (SENS_OK, st2) ∧
      st2.data DAT_HYGRO_OK = 1 ∧ st2.data DAT_TEMP_OK = 1 ∧
      st2.data DAT_HYGRO = 40 ∧ st2.data DAT_TEMP = 20 := by
  obtain ⟨st2, h, hhok, htok, hh, ht, _, _⟩ :=
    handleSensor_decode_ok (lineDriver (bitsOfBytes [1, 144, 0, 200, 89])) 1 dueState
      (bitsOfBytes [1, 144, 0, 200, 89]) (by decide) (by decide) (by decide)
  refine ⟨st2, h, hhok, htok, ?_, ?_⟩
  · rw [hh]; decide
  · rw [ht]; decide

set_option maxRecDepth 100000 in
/-- Counterexample to C1 as stated: the payload `[0x0A, 0, 0, 0, 0x0A]` has a
valid checksum and bit 7 of byte 2 clear, its humidity quotient is 256, and
`handleSensor` returns `SENS_OK` with the stored humidity 0. -/
theorem handleSensor_decode_exact_counterexample :
    sampledBits (lineDriver (bitsOfBytes [10, 0, 0, 0, 10])) 1 dueState
        = some (bitsOfBytes [10, 0, 0, 0, 10]) ∧
      (List.range 5).map (inputDataOf (lineDriver (bitsOfBytes [10, 0, 0, 0, 10]))
        (bitsOfBytes [10, 0, 0, 0, 10])) = [10, 0, 0, 0, 10] ∧
      (10 : Nat) = (10 + 0 + 0 + 0) % 256 ∧ (0 : Nat) < 128 ∧
      (256 * 10 + 0 + 5) / 10 = 256 ∧
      ¬ ∃ st2, handleSensor (lineDriver (bitsOfBytes [10, 0, 0, 0, 10])) 1 dueState
            = some (SENS_OK, st2) ∧
          st2.data DAT_HYGRO = (256 * 10 + 0 + 5) / 10 := by
  refine ⟨by decide, by decide, by decide, by decide, by decide, ?_⟩
  rintro ⟨st2, h, hd⟩
  have hmap : (handleSensor (lineDriver (bitsOfBytes [10, 0, 0, 0, 10])) 1 dueState).map
      (fun r => r.2.data DAT_HYGRO) = some 0 := by decide
  rw [h] at hmap
  simp only [Option.map_some', Option.some.injEq] at hmap
  rw [hmap] at hd
  exact absurd hd (by decide)

/-- Claim C2: a call of `handleSensor` that sampled bits whose packed byte 4
differs from the 8-bit sum of bytes 0..3 returns 7 and leaves `data[]` as it
was; conversely a call returns 7 only after sampling such bits; and 7 differs
from `SENS_OK`, `SENS_NOT_READ` and the early-return codes 2..6 of the
transaction. -/
theorem handleSensor_checksum_reject (hw : Hw) (fuel : Nat) (st : State) :
    (∀ bits, sampledBits hw fuel st = some bits →
      inputDataOf hw bits 4
        ≠ (inputDataOf hw bits 0 + inputDataOf hw bits 1 + inputDataOf hw bits 2
            + inputDataOf hw bits 3) % 256 →
      ∃ st2, handleSensor hw fuel st = some (7, st2) ∧ st2.data = st.data) ∧
    (∀ st2, handleSensor hw fuel st = some (7, st2) →
      st2.data = st.data ∧
      ∃ bits, sampledBits hw fuel st = some bits ∧
        inputDataOf hw bits 4
          ≠ (inputDataOf hw bits 0 + inputDataOf hw bits 1 + inputDataOf hw bits 2
              + inputDataOf hw bits 3) % 256) ∧
    (∀ code st1, transaction hw fuel st = some (Tx.abort code st1) → 2 ≤ code ∧ code ≤ 6) ∧
    SENS_OK ≠ 7 ∧ SENS_NOT_READ ≠ 7 := by
  refine ⟨?_, ?_, ?_, by decide, by decide⟩
  · intro bits hbits hne
    obtain ⟨st1, hcall, hd, _, _⟩ := handleSensor_sampled hw fuel st bits hbits
    rw [decode_mismatch _ _ (fun e => hne e.symm)] at hcall
    exact ⟨st1, hcall, hd⟩
  · intro st2 h
    rcases handleSensor_cases hw fuel st 7 st2 h with
      ⟨_, h7, _⟩ | ⟨_, _, h6, _⟩ | ⟨bits, st1, hbits, hd, _, _, hdec⟩
    · exact absurd h7 (by decide)
    · omega
    · by_cases hsum : (inputDataOf hw bits 0 + inputDataOf hw bits 1 + inputDataOf hw bits 2
          + inputDataOf hw bits 3) % 256 = inputDataOf hw bits 4
      · have hok := (decode_valid (inputDataOf hw bits) st1 hsum
          (inputDataOf_lt hw bits 0 (by norm_num)) (inputDataOf_lt hw bits 1 (by norm_num))
          (inputDataOf_lt hw bits 2 (by norm_num)) (inputDataOf_lt hw bits 3 (by norm_num))).1
        rw [hdec] at hok
        have h71 : (7 : Nat) = SENS_OK := hok
        exact absurd h71 (by decide)
      · rw [decode_mismatch _ _ hsum] at hdec
        have hst : st1 = st2 := (Prod.mk.inj hdec).2
        subst hst
        exact ⟨hd, bits, hbits, fun e => hsum e.symm⟩
  · intro code st1 htx
    obtain ⟨_, _, hc⟩ := transaction_cases hw fuel st _ htx
    rcases hc with ⟨c, s1, e, hlo, hhi⟩ | ⟨b2, s1, e, _⟩
    · have hcode : code = c := by injection e
      omega
    · exact absurd e (by simp)

set_option maxRecDepth 100000 in
/-- Witness for C2: the payload `[0x01, 0x90, 0x00, 0xC8, 0x5A]` (checksum off
by one) is rejected with code 7 and `data[]` keeps its content. -/
theorem handleSensor_checksum_reject_witness :
    ∃ st2, handleSensor (lineDriver (bitsOfBytes [1, 144, 0, 200, 90])) 1 dueState
        = some (7, st2) ∧ st2.data = dueState.data :=
  (handleSensor_checksum_reject (lineDriver (bitsOfBytes [1, 144, 0, 200, 90])) 1 dueState).1
    (bitsOfBytes [1, 144, 0, 200, 90]) (by decide) (by decide)

/-- Claim C3: for 40 sampled bits, each 0 or 1, and any initial content of
`inputData`, the packing loop yields
`inputData[j] = sum over k < 8 of s[8 j + k] * 2 ^ (7 - k)` for `j < 5`: most
significant bit first, `s[0]` being bit 7 of byte 0. -/
theorem packBits_msb_first (s : List Nat) (init : Nat → Nat) (j : Nat)
    (hbits : ∀ i, i < 40 → s.getD i 0 ≤ 1) (hj : j < 5) :
    packBits s init j = ∑ k in Finset.range 8, s.getD (8 * j + k) 0 * 2 ^ (7 - k) := by
  rw [packBits_cell s init j hj, packByte_eq _ _ (fun k hk => hbits (8 * j + k) (by omega))]
  simp [Finset.sum_range_succ]

/-- Witness for C3: the bits of `[0x01, 0x90, 0x00, 0xC8, 0x59]` packed over a
buffer full of `0xFF`; byte 1 comes out as `0x90`. -/
theorem packBits_msb_first_witness :
    packBits (bitsOfBytes [1, 144, 0, 200, 89]) (fun _ => 255) 1 = 144 := by
  rw [packBits_msb_first (bitsOfBytes [1, 144, 0, 200, 89]) (fun _ => 255) 1 (by decide)
    (by decide)]
  decide

/-- Claim C4: when the payload has a valid checksum and bit 7 of byte 2 set,
`handleSensor` returns `SENS_OK`, sets `data[DAT_TEMP_OK]` to 0, leaves
`data[DAT_TEMP]` unchanged, sets `data[DAT_HYGRO_OK]` to 1 and stores the
decoded (rounded, 8-bit) humidity. -/
theorem handleSensor_sign_bit (hw : Hw) (fuel : Nat) (st : State) (bits : List Nat)
    (hbits : sampledBits hw fuel st = some bits)
    (hsum : inputDataOf hw bits 4
      = (inputDataOf hw bits 0 + inputDataOf hw bits 1 + inputDataOf hw bits 2
          + inputDataOf hw bits 3) % 256)
    (htop : 128 ≤ inputDataOf hw bits 2) :
    ∃ st2, handleSensor hw fuel st = some (SENS_OK, st2) ∧
      st2.data DAT_TEMP_OK = 0 ∧ st2.data DAT_TEMP = st.data DAT_TEMP ∧
      st2.data DAT_HYGRO_OK = 1 ∧
      st2.data DAT_HYGRO
        = (256 * inputDataOf hw bits 0 + inputDataOf hw bits 1 + 5) / 10 % 256 := by
  obtain ⟨st1, hcall, hd, _, _⟩ := handleSensor_sampled hw fuel st bits hbits
  obtain ⟨hret, _, _, _, _, hhok, hh, htok, ht⟩ :=
    decode_valid (inputDataOf hw bits) st1 hsum.symm
      (inputDataOf_lt hw bits 0 (by norm_num)) (inputDataOf_lt hw bits 1 (by norm_num))
      (inputDataOf_lt hw bits 2 (by norm_num)) (inputDataOf_lt hw bits 3 (by norm_num))
  rw [if_pos htop] at htok ht
  refine ⟨(decode (inputDataOf hw bits) st1).2, ?_, htok, ?_, hhok, hh⟩
  · rw [hcall, ← hret]
  · rw [ht, hd]

set_option maxRecDepth 100000 in
/-- Witness for C4: the payload `[0x01, 0x90, 0x80, 0x65, 0x76]` marks the
temperature invalid, keeps the old reading 33 and stores humidity 40. -/
theorem handleSensor_sign_bit_witness :
    ∃ st2, handleSensor (lineDriver (bitsOfBytes [1, 144, 128, 101, 118])) 1 dueState
        = some (SENS_OK, st2) ∧
      st2.data DAT_TEMP_OK = 0 ∧ st2.data DAT_TEMP = 33 ∧
      st2.data DAT_HYGRO_OK = 1 ∧ st2.data DAT_HYGRO = 40 := by
  obtain ⟨st2, h, htok, ht, hhok, hh⟩ :=
    handleSensor_sign_bit (lineDriver (bitsOfBytes [1, 144, 128, 101, 118])) 1 dueState
      (bitsOfBytes [1, 144, 128, 101, 118]) (by decide) (by decide) (by decide)
  refine ⟨st2, h, htok, ?_, hhok, ?_⟩
  · rw [ht]; decide
  · rw [hh]; decide

/-! ## Timer bank -/

theorem tickISR_iterate (k : Nat) (st : State) :
    (tickISR^[k] st).timers = st.timers ∧
      (tickISR^[k] st).timer % 65536 = (st.timer + k) % 65536 := by
  induction k with
  | zero => exact ⟨rfl, rfl⟩
  | succ n ih =>
    rw [Function.iterate_succ_apply']
    obtain ⟨h1, h2⟩ := ih
    refine ⟨h1, ?_⟩
    show ((tickISR^[n] st).timer + 1) % 65536 % 65536 = (st.timer + (n + 1)) % 65536
    omega

/-- Claim C5: for every timer index below `NUM_TIMERS` and every value of the
tick counter, `getTimeDiff(id)` right after `resetTimer(id)` is 0, and after
`k` further tick interrupts it is `k mod 65536`, hence exactly `k` for
`k < 65536`, also when the 16-bit counter wraps in between. -/
theorem getTimeDiff_after_reset (st : State) (id k : Nat) (hid : id < NUM_TIMERS) :
    getTimeDiff (resetTimer st id) id = 0 ∧
    getTimeDiff (tickISR^[k] (resetTimer st id)) id = k % 65536 ∧
    (k < 65536 → getTimeDiff (tickISR^[k] (resetTimer st id)) id = k) := by
  have hgen : getTimeDiff (tickISR^[k] (resetTimer st id)) id = k % 65536 := by
    obtain ⟨h1, h2⟩ := tickISR_iterate k (resetTimer st id)
    unfold getTimeDiff timeDiff
    rw [if_pos hid, h1, h2]
    unfold resetTimer
    rw [if_pos hid]
    simp only [upd, if_true]
    omega
  refine ⟨?_, hgen, ?_⟩
  · have h0 : getTimeDiff (tickISR^[0] (resetTimer st id)) id = 0 % 65536 := by
      obtain ⟨h1, h2⟩ := tickISR_iterate 0 (resetTimer st id)
      unfold getTimeDiff timeDiff
      rw [if_pos hid, h1, h2]
      unfold resetTimer
      rw [if_pos hid]
      simp only [upd, if_true]
      omega
    exact h0
  · intro hk
    rw [hgen]
    exact Nat.mod_eq_of_lt hk

/-- Witness for C5: timer `T_WAIT` reset at counter value 65530 and queried
10 ticks later, after the counter wrapped to 4. -/
theorem getTimeDiff_after_reset_witness :
    (tickISR^[10] (resetTimer { dueState with timer := 65530 } T_WAIT)).timer = 4 ∧
    getTimeDiff (tickISR^[10] (resetTimer { dueState with timer := 65530 } T_WAIT)) T_WAIT
      = 10 :=
  ⟨by decide,
    (getTimeDiff_after_reset { dueState with timer := 65530 } T_WAIT 10 (by decide)).2.2
      (by decide)⟩

/-! ## PWM interrupt -/

theorem readBit_le_one (r b : Nat) : readBit r b ≤ 1 := by
  rw [readBit_eq]; omega

theorem pwmISR_duty (st : State) : (pwmISR st).duty = st.duty := rfl

theorem pwmISR_cycle (st : State) :
    (pwmISR st).pwmCycle
      = if MAX_PWM < (st.pwmCycle + 1) % 256 then 0 else (st.pwmCycle + 1) % 256 := rfl

theorem readBit_clearIf (q : Prop) [Decidable q] (r b c : Nat) (hb : b < 8) (hc : c < 8) :
    readBit (if q then setBit r b 0 else r) c = if q ∧ c = b then 0 else readBit r c := by
  by_cases hq : q
  · rw [if_pos hq, readBit_setBit r b 0 c hb hc]
    by_cases hcb : c = b
    · have hqc : q ∧ c = b := And.intro hq hcb
      rw [if_pos hcb, if_pos hqc]; rfl
    · have hqc : ¬ (q ∧ c = b) := fun h => hcb h.2
      rw [if_neg hcb, if_neg hqc]
  · have hqc : ¬ (q ∧ c = b) := fun h => hq h.1
    rw [if_neg hq, if_neg hqc]

/-- The output bit of channel `c` after one invocation of the PWM interrupt:
at a wrap it is on unless the duty is 0, otherwise it is switched off when the
counter equals the duty and left alone when it does not. -/
theorem pwmISR_bit (st : State) (c : Nat) (hc : c < 3) :
    readBit (pwmISR st).PORTD c
      = if MAX_PWM < (st.pwmCycle + 1) % 256 then (if st.duty c = 0 then 0 else 1)
        else if (st.pwmCycle + 1) % 256 = st.duty c then 0
        else readBit st.PORTD c := by
  unfold pwmISR
  simp only [COL_RED, COL_GRE, COL_BLU]
  rw [readBit_clearIf _ _ _ _ (by norm_num) (by omega),
    readBit_clearIf _ _ _ _ (by norm_num) (by omega),
    readBit_clearIf _ _ _ _ (by norm_num) (by omega)]
  by_cases hw : MAX_PWM < (st.pwmCycle + 1) % 256
  · simp only [if_pos hw]
    rw [readBit_setBit _ _ _ _ (by norm_num) (by omega),
      readBit_setBit _ _ _ _ (by norm_num) (by omega),
      readBit_setBit _ _ _ _ (by norm_num) (by omega)]
    interval_cases c <;> norm_num <;> split_ifs <;> omega
  · simp only [if_neg hw]
    interval_cases c <;> norm_num

/-- Within the cycle started by a wrap invocation, after the invocation that
leaves the counter at `n` the output bit of channel `c` is on exactly when
`n` is below the channel's duty. -/
theorem pwm_cycle_bits (st : State) (c : Nat) (hc : c < 3)
    (hwrap : MAX_PWM < (st.pwmCycle + 1) % 256) :
    ∀ n, n ≤ 100 →
      (pwmISR^[n + 1] st).pwmCycle = n ∧ (pwmISR^[n + 1] st).duty = st.duty ∧
      readBit (pwmISR^[n + 1] st).PORTD c = if n < st.duty c then 1 else 0 := by
  intro n
  induction n with
  | zero =>
    intro _
    rw [Function.iterate_succ_apply', Function.iterate_zero_apply]
    refine ⟨?_, rfl, ?_⟩
    · rw [pwmISR_cycle, if_pos hwrap]
    · rw [pwmISR_bit st c hc, if_pos hwrap]
      by_cases hz : st.duty c = 0
      · rw [if_pos hz, if_neg (by omega)]
      · rw [if_neg hz, if_pos (by omega)]
  | succ m ih =>
    intro hm
    obtain ⟨h1, h2, h3⟩ := ih (by omega)
    rw [Function.iterate_succ_apply']
    have hnw : ¬ MAX_PWM < ((pwmISR^[m + 1] st).pwmCycle + 1) % 256 := by
      rw [h1]; unfold MAX_PWM; omega
    have hmod : (m + 1) % 256 = m + 1 := Nat.mod_eq_of_lt (by omega)
    refine ⟨?_, ?_, ?_⟩
    · rw [pwmISR_cycle, if_neg hnw, h1, hmod]
    · rw [pwmISR_duty, h2]
    · rw [pwmISR_bit _ c hc, if_neg hnw, h1, h2, h3, hmod]
      by_cases he : m + 1 = st.duty c
      · rw [if_pos he, if_neg (by omega)]
      · rw [if_neg he]
        by_cases hlt : m < st.duty c
        · rw [if_pos hlt, if_pos (by omega)]
        · rw [if_neg hlt, if_neg (by omega)]

/-- Claim C6: the PWM counter is in 0..100 after every invocation and, from a
value in that range, steps to its successor modulo 101; for a channel with
duty `d < 100`, in the cycle started by a wrap invocation the output bit is
on after the invocation that leaves the counter at `n` exactly when `n < d`,
so it is on for exactly `d` of the 101 ticks, from the cycle start, and never
for `d = 0`. -/
theorem pwm_duty_below_100 (st : State) (c : Nat) (hc : c < 3) (hd : st.duty c < 100)
    (hwrap : MAX_PWM < (st.pwmCycle + 1) % 256) :
    (∀ s : State, (pwmISR s).pwmCycle ≤ 100 ∧ (pwmISR s).duty = s.duty ∧
      (s.pwmCycle ≤ 100 → (pwmISR s).pwmCycle = (s.pwmCycle + 1) % 101)) ∧
    (∀ n, n ≤ 100 → (pwmISR^[n + 1] st).pwmCycle = n ∧
      (readBit (pwmISR^[n + 1] st).PORTD c = 1 ↔ n < st.duty c)) ∧
    ((Finset.range 101).filter
      (fun n => readBit (pwmISR^[n + 1] st).PORTD c = 1)).card = st.duty c ∧
    (st.duty c = 0 → ∀ n, n ≤ 100 → readBit (pwmISR^[n + 1] st).PORTD c = 0) := by
  have hbits := pwm_cycle_bits st c hc hwrap
  have hiff : ∀ n, n ≤ 100 → (readBit (pwmISR^[n + 1] st).PORTD c = 1 ↔ n < st.duty c) := by
    intro n hn
    rw [(hbits n hn).2.2]
    by_cases hlt : n < st.duty c
    · rw [if_pos hlt]; exact ⟨fun _ => hlt, fun _ => rfl⟩
    · rw [if_neg hlt]; exact ⟨fun h => absurd h (by decide), fun h => absurd h hlt⟩
  refine ⟨?_, ?_, ?_, ?_⟩
  · intro s
    refine ⟨?_, rfl, ?_⟩
    · rw [pwmISR_cycle]
      unfold MAX_PWM
      split <;> omega
    · intro hs
      rw [pwmISR_cycle]
      unfold MAX_PWM
      split <;> omega
  · intro n hn
    exact ⟨(hbits n hn).1, hiff n hn⟩
  · have hset : (Finset.range 101).filter
        (fun n => readBit (pwmISR^[n + 1] st).PORTD c = 1) = Finset.range (st.duty c) := by
      ext n
      rw [Finset.mem_filter, Finset.mem_range, Finset.mem_range]
      constructor
      · rintro ⟨hn, hb⟩
        exact (hiff n (by omega)).1 hb
      · intro hn
        exact ⟨by omega, (hiff n (by omega)).2 hn⟩
    rw [hset, Finset.card_range]
  · intro hz n hn
    rw [(hbits n hn).2.2, if_neg (by omega)]

/-- Witness for C6: red duty 30, counter about to wrap; after the 30th
invocation of the cycle (counter 29) the red LED is still on, after the 31st
(counter 30) it is off. -/
theorem pwm_duty_below_100_witness :
    (readBit (pwmISR^[29 + 1] dimState).PORTD 0 = 1 ↔ 29 < dimState.duty 0) ∧
    (readBit (pwmISR^[30 + 1] dimState).PORTD 0 = 1 ↔ 30 < dimState.duty 0) ∧
    ((Finset.range 101).filter
      (fun n => readBit (pwmISR^[n + 1] dimState).PORTD 0 = 1)).card = 30 := by
  have h := pwm_duty_below_100 dimState 0 (by decide) (by decide) (by decide)
  exact ⟨(h.2.1 29 (by decide)).2, (h.2.1 30 (by decide)).2, h.2.2.1⟩

set_option maxRecDepth 100000 in
/-- Evaluation for C7: with all duties at 100 and the counter about to wrap,
the red LED is on after the 100th invocation of the cycle (counter 99) and
off after the 101st (counter 100): the comparison `pwmCycle == duty` switches
a channel with duty `MAX_PWM` off for the last tick of every cycle. -/
theorem pwm_duty_100_switched_off :
    fullOnState.duty COL_RED = MAX_PWM ∧ MAX_PWM < (fullOnState.pwmCycle + 1) % 256 ∧
    (pwmISR^[1] fullOnState).pwmCycle = 0 ∧
    readBit (pwmISR^[100] fullOnState).PORTD 0 = 1 ∧
    (pwmISR^[101] fullOnState).pwmCycle = 100 ∧
    readBit (pwmISR^[101] fullOnState).PORTD 0 = 0 := by
  decide

/-! ## Sensor step of the main loop -/

/-- Every return of `handleSensor` carries a code 0..7 and leaves `sensError`
alone; unless the code is `SENS_OK`, `data[]` is left alone too. -/
theorem handleSensor_frame (hw : Hw) (fuel : Nat) (st : State) (r : Nat) (st1 : State)
    (h : handleSensor hw fuel st = some (r, st1)) :
    r ≤ 7 ∧ st1.sensError = st.sensError ∧ (r ≠ SENS_OK → st1.data = st.data) := by
  rcases handleSensor_cases hw fuel st r st1 h with
    ⟨_, h0, hst⟩ | ⟨_, _, h6, hd, hs, _⟩ | ⟨bits, st0, _, hd, hs, _, hdec⟩
  · rw [h0, hst]
    exact ⟨by decide, rfl, fun _ => rfl⟩
  · exact ⟨by omega, hs, fun _ => hd⟩
  · by_cases hsum : (inputDataOf hw bits 0 + inputDataOf hw bits 1 + inputDataOf hw bits 2
        + inputDataOf hw bits 3) % 256 = inputDataOf hw bits 4
    · obtain ⟨hret, hse, _⟩ := decode_valid (inputDataOf hw bits) st0 hsum
        (inputDataOf_lt hw bits 0 (by norm_num)) (inputDataOf_lt hw bits 1 (by norm_num))
        (inputDataOf_lt hw bits 2 (by norm_num)) (inputDataOf_lt hw bits 3 (by norm_num))
      rw [hdec] at hret hse
      have hr : r = SENS_OK := hret
      have hs1 : st1.sensError = st0.sensError := hse
      exact ⟨by rw [hr]; decide, hs1.trans hs, fun hne => absurd hr hne⟩
    · rw [decode_mismatch _ _ hsum] at hdec
      have hr : 7 = r := (Prod.mk.inj hdec).1
      have hst : st0 = st1 := (Prod.mk.inj hdec).2
      subst hr; subst hst
      exact ⟨le_refl 7, hs, fun _ => hd⟩

/-- The call returns as soon as its request-pulse wait, if any, finishes. -/
theorem handleSensor_returns (hw : Hw) (fuel : Nat) (st : State)
    (hpulse : SENS_PERIOD < getTimeDiff st T_WAIT → (pulseWaitOf hw fuel st).isSome = true) :
    ∃ r st1, handleSensor hw fuel st = some (r, st1) := by
  by_cases hdue : SENS_PERIOD < getTimeDiff st T_WAIT
  · have htx : (transaction hw fuel st).isSome = true := by
      rw [transaction_isSome]; exact hpulse hdue
    obtain ⟨tx, e⟩ := Option.isSome_iff_exists.mp htx
    unfold handleSensor
    rw [if_pos hdue, e]
    cases tx with
    | abort code st1 => exact ⟨code, st1, rfl⟩
    | sampled bits st1 => exact ⟨_, _, rfl⟩
  · exact ⟨_, _, handleSensor_notDue hw fuel st hdue⟩

theorem retCode_some (hw : Hw) (fuel : Nat) (st : State) (r : Nat)
    (h : retCode hw fuel st = some r) : ∃ st1, handleSensor hw fuel st = some (r, st1) := by
  unfold retCode at h
  cases hh : handleSensor hw fuel st with
  | none => rw [hh] at h; exact absurd h (by simp)
  | some x =>
    rw [hh] at h
    have hx : x.1 = r := Option.some.inj h
    exact ⟨x.2, by rw [← hx]⟩

/-- Claim C8: whenever the request-pulse wait (if the sensor is due) comes to
an end, `handleSensor` returns one of the codes 0..7, and in the state in
which the main loop examines that code the PWM interrupt enable `OCIE1A` of
`TIMSK` is 1, whichever exit path was taken. -/
theorem pollSensor_pwm_enabled (hw : Hw) (fuel : Nat) (st : State)
    (hpulse : SENS_PERIOD < getTimeDiff st T_WAIT → (pulseWaitOf hw fuel st).isSome = true) :
    ∃ r st2, pollSensor hw fuel st = some (r, st2) ∧ r ≤ 7 ∧ readBit st2.TIMSK OCIE1A = 1 := by
  obtain ⟨r, st1, h⟩ := handleSensor_returns hw fuel st hpulse
  refine ⟨r, { st1 with TIMSK := setBit st1.TIMSK OCIE1A 1 }, ?_,
    (handleSensor_frame hw fuel st r st1 h).1, ?_⟩
  · unfold pollSensor
    rw [h]
  · show readBit (setBit st1.TIMSK OCIE1A 1) OCIE1A = 1
    rw [readBit_setBit _ _ _ _ (by decide) (by decide)]
    simp

/-- Witness for C8: a due sensor that never answers (the call ends in a
timeout abort); the PWM interrupt is enabled when the code is examined. -/
theorem pollSensor_pwm_enabled_witness :
    ∃ r st2, pollSensor deadLine 1 dueState = some (r, st2) ∧ r ≤ 7 ∧
      readBit st2.TIMSK OCIE1A = 1 :=
  pollSensor_pwm_enabled deadLine 1 dueState (fun _ => by decide)

/-- One sensor step after `handleSensor` returned `r`: the step returns, and
its effect on `sensError` and `data[]` is that of the bookkeeping on `r`. -/
theorem sensorStep_of_retCode (hw : Hw) (fuel : Nat) (st : State) (r : Nat)
    (h : retCode hw fuel st = some r) :
    r ≤ 7 ∧ ∃ st1, sensorStep hw fuel st = some (sensorUpdate r st1) ∧
      st1.sensError = st.sensError ∧ (r ≠ SENS_OK → st1.data = st.data) := by
  obtain ⟨st0, h0⟩ := retCode_some hw fuel st r h
  obtain ⟨hr, hs, hd⟩ := handleSensor_frame hw fuel st r st0 h0
  refine ⟨hr, { st0 with TIMSK := setBit st0.TIMSK OCIE1A 1 }, ?_, hs, hd⟩
  unfold sensorStep pollSensor
  rw [h0]

/-- Claim C9: in the sensor step, for every error outcome of `handleSensor`
(a code other than `SENS_NOT_READ` and `SENS_OK`) the error counter is
incremented, `data[DAT_HYGRO]` and `data[DAT_TEMP]` keep their values, both
validity flags are forced to 0 when the incremented counter exceeds
`SENS_MAX_ERR`, and `data[]` is untouched when it does not; so from
`sensError = 0` a failure leaves the flags untouched, and from
`sensError = 1` (the second consecutive failure) it makes both false. -/
theorem sensorStep_error_escalation (hw : Hw) (fuel : Nat) (st : State) (r : Nat)
    (hret : retCode hw fuel st = some r) (hnr : r ≠ SENS_NOT_READ) (hok : r ≠ SENS_OK) :
    ∃ st2, sensorStep hw fuel st = some st2 ∧
      st2.sensError = (st.sensError + 1) % 256 ∧
      st2.data DAT_HYGRO = st.data DAT_HYGRO ∧ st2.data DAT_TEMP = st.data DAT_TEMP ∧
      (SENS_MAX_ERR < (st.sensError + 1) % 256 →
        st2.data DAT_HYGRO_OK = 0 ∧ st2.data DAT_TEMP_OK = 0) ∧
      (¬ SENS_MAX_ERR < (st.sensError + 1) % 256 → st2.data = st.data) ∧
      (st.sensError = 0 → st2.data = st.data ∧ st2.sensError = 1) ∧
      (st.sensError = 1 → st2.data DAT_HYGRO_OK = 0 ∧ st2.data DAT_TEMP_OK = 0) := by
  obtain ⟨_, st1, hstep, hs, hd⟩ := sensorStep_of_retCode hw fuel st r hret
  have hd1 : st1.data = st.data := hd hok
  have hupd : sensorUpdate r st1 =
      (if SENS_MAX_ERR < (st1.sensError + 1) % 256 then
        { st1 with sensError := (st1.sensError + 1) % 256,
                   data := upd (upd st1.data DAT_HYGRO_OK 0) DAT_TEMP_OK 0 }
      else { st1 with sensError := (st1.sensError + 1) % 256 }) := by
    unfold sensorUpdate
    rw [if_neg hok, if_pos hnr]
  refine ⟨sensorUpdate r st1, hstep, ?_⟩
  rw [hupd, hs, hd1]
  by_cases hmax : SENS_MAX_ERR < (st.sensError + 1) % 256
  · rw [if_pos hmax]
    refine ⟨rfl, rfl, rfl, fun _ => ⟨rfl, rfl⟩, fun hn => absurd hmax hn, ?_, fun _ => ⟨rfl, rfl⟩⟩
    intro h0
    rw [h0] at hmax
    exact absurd hmax (by decide)
  · rw [if_neg hmax]
    refine ⟨rfl, rfl, rfl, fun hn => absurd hn hmax, fun _ => rfl, ?_, ?_⟩
    · intro h0
      refine ⟨rfl, ?_⟩
      show (st.sensError + 1) % 256 = 1
      rw [h0]
    · intro h1
      rw [h1] at hmax
      exact absurd (by decide) hmax

set_option maxRecDepth 100000 in
/-- Witness for C9: a checksum failure (code 7) as first failure leaves
`data[]` untouched and counts one error; as second consecutive failure it
clears both validity flags and keeps the readings 55 and 33. -/
theorem sensorStep_error_escalation_witness :
    (∃ st2, sensorStep (lineDriver (bitsOfBytes [1, 144, 0, 200, 90])) 1 dueState = some st2 ∧
      st2.data = dueState.data ∧ st2.sensError = 1) ∧
    (∃ st2, sensorStep (lineDriver (bitsOfBytes [1, 144, 0, 200, 90])) 1
        { dueState with sensError := 1 } = some st2 ∧
      st2.sensError = 2 ∧ st2.data DAT_HYGRO_OK = 0 ∧ st2.data DAT_TEMP_OK = 0 ∧
      st2.data DAT_HYGRO = 55 ∧ st2.data DAT_TEMP = 33) := by
  obtain ⟨s1, e1, _, _, _, _, _, hfirst, _⟩ :=
    sensorStep_error_escalation (lineDriver (bitsOfBytes [1, 144, 0, 200, 90])) 1 dueState 7
      (by decide) (by decide) (by decide)
  obtain ⟨s2, e2, hc, hh, ht, _, _, _, hsecond⟩ :=
    sensorStep_error_escalation (lineDriver (bitsOfBytes [1, 144, 0, 200, 90])) 1
      { dueState with sensError := 1 } 7 (by decide) (by decide) (by decide)
  exact ⟨⟨s1, e1, (hfirst rfl).1, (hfirst rfl).2⟩,
    ⟨s2, e2, hc, (hsecond rfl).1, (hsecond rfl).2, hh, ht⟩⟩

/-- Claim C10: after one sensor step `sensError` is 0 if `handleSensor`
returned `SENS_OK`, the old value plus 1 (as an 8-bit value) if it returned an
error code 2..7, and the old value if it returned `SENS_NOT_READ`; no other
code is returned. -/
theorem sensorStep_error_counter (hw : Hw) (fuel : Nat) (st : State) (r : Nat)
    (hret : retCode hw fuel st = some r) :
    ∃ st2, sensorStep hw fuel st = some st2 ∧
      (r = SENS_OK → st2.sensError = 0) ∧
      (2 ≤ r ∧ r ≤ 7 → st2.sensError = (st.sensError + 1) % 256) ∧
      (r = SENS_NOT_READ → st2.sensError = st.sensError) ∧
      (r = SENS_OK ∨ r = SENS_NOT_READ ∨ (2 ≤ r ∧ r ≤ 7)) := by
  obtain ⟨hr, st1, hstep, hs, _⟩ := sensorStep_of_retCode hw fuel st r hret
  refine ⟨sensorUpdate r st1, hstep, ?_, ?_, ?_, ?_⟩
  · intro h1
    unfold sensorUpdate
    rw [if_pos h1]
  · intro h2
    have hok : r ≠ SENS_OK := by unfold SENS_OK; omega
    have hnr : r ≠ SENS_NOT_READ := by unfold SENS_NOT_READ; omega
    unfold sensorUpdate
    rw [if_neg hok, if_pos hnr]
    simp only []
    split <;> exact congrArg (fun x => (x + 1) % 256) hs
  · intro h0
    have hok : r ≠ SENS_OK := by rw [h0]; decide
    have hnr : ¬ r ≠ SENS_NOT_READ := fun hne => hne h0
    unfold sensorUpdate
    rw [if_neg hok, if_neg hnr]
    exact hs
  · unfold SENS_OK SENS_NOT_READ
    omega

set_option maxRecDepth 100000 in
/-- Witness for C10: a successful reading resets an error counter of 5, a
checksum failure increments it to 6, and a call before the sensor period has
elapsed leaves it at 5. -/
theorem sensorStep_error_counter_witness :
    (∃ st2, sensorStep (lineDriver (bitsOfBytes [1, 144, 0, 200, 89])) 1
        { dueState with sensError := 5 } = some st2 ∧ st2.sensError = 0) ∧
    (∃ st2, sensorStep (lineDriver (bitsOfBytes [1, 144, 0, 200, 90])) 1
        { dueState with sensError := 5 } = some st2 ∧ st2.sensError = 6) ∧
    (∃ st2, sensorStep deadLine 0 { dueState with sensError := 5, timer := 100 } = some st2 ∧
      st2.sensError = 5) := by
  obtain ⟨s1, e1, h1, _, _, _⟩ :=
    sensorStep_error_counter (lineDriver (bitsOfBytes [1, 144, 0, 200, 89])) 1
      { dueState with sensError := 5 } 1 (by decide)
  obtain ⟨s2, e2, _, h2, _, _⟩ :=
    sensorStep_error_counter (lineDriver (bitsOfBytes [1, 144, 0, 200, 90])) 1
      { dueState with sensError := 5 } 7 (by decide)
  obtain ⟨s3, e3, _, _, h3, _⟩ :=
    sensorStep_error_counter deadLine 0 { dueState with sensError := 5, timer := 100 } 0
      (by decide)
  exact ⟨⟨s1, e1, h1 rfl⟩, ⟨s2, e2, h2 (by decide)⟩, ⟨s3, e3, h3 rfl⟩⟩

/-! ## Claims on the sensor period, the timer bank and the bit helpers -/

/-- Claim C11: while the elapsed time of `T_WAIT` is at most `SENS_PERIOD`,
`handleSensor` returns `SENS_NOT_READ` with the state untouched (no
transaction is started), and the sensor step changes nothing but the PWM
interrupt enable in `TIMSK`: `data[]`, `sensError` and the timer snapshots
stay as they were; and `handleSensor` returns `SENS_NOT_READ` in this case
only. -/
theorem sensorStep_not_due (hw : Hw) (fuel : Nat) (st : State) :
    (getTimeDiff st T_WAIT ≤ SENS_PERIOD →
      handleSensor hw fuel st = some (SENS_NOT_READ, st) ∧
      sensorStep hw fuel st = some { st with TIMSK := setBit st.TIMSK OCIE1A 1 } ∧
      ∃ st2, sensorStep hw fuel st = some st2 ∧ st2.data = st.data ∧
        st2.sensError = st.sensError ∧ st2.timers = st.timers) ∧
    (∀ st1, handleSensor hw fuel st = some (SENS_NOT_READ, st1) →
      getTimeDiff st T_WAIT ≤ SENS_PERIOD ∧ st1 = st) := by
  constructor
  · intro h
    have hnd : ¬ SENS_PERIOD < getTimeDiff st T_WAIT := by omega
    have hcall := handleSensor_notDue hw fuel st hnd
    have hstep : sensorStep hw fuel st = some { st with TIMSK := setBit st.TIMSK OCIE1A 1 } := by
      unfold sensorStep pollSensor
      rw [hcall]
      rfl
    exact ⟨hcall, hstep, _, hstep, rfl, rfl, rfl⟩
  · intro st1 h
    rcases handleSensor_cases hw fuel st SENS_NOT_READ st1 h with
      ⟨hnd, _, hst⟩ | ⟨_, h2, _⟩ | ⟨bits, st0, _, _, _, _, hdec⟩
    · exact ⟨by omega, hst⟩
    · exact absurd h2 (by decide)
    · exfalso
      by_cases hsum : (inputDataOf hw bits 0 + inputDataOf hw bits 1 + inputDataOf hw bits 2
          + inputDataOf hw bits 3) % 256 = inputDataOf hw bits 4
      · have hok := (decode_valid (inputDataOf hw bits) st0 hsum
          (inputDataOf_lt hw bits 0 (by norm_num)) (inputDataOf_lt hw bits 1 (by norm_num))
          (inputDataOf_lt hw bits 2 (by norm_num)) (inputDataOf_lt hw bits 3 (by norm_num))).1
        rw [hdec] at hok
        have h01 : SENS_NOT_READ = SENS_OK := hok
        exact absurd h01 (by decide)
      · rw [decode_mismatch _ _ hsum] at hdec
        have h70 : 7 = SENS_NOT_READ := (Prod.mk.inj hdec).1
        exact absurd h70 (by decide)

/-- Witness for C11: 100 ticks after the last reset of `T_WAIT` the call
returns `SENS_NOT_READ` and the step keeps `data[]`, `sensError` and the
snapshots, even with a sensor that would not answer. -/
theorem sensorStep_not_due_witness :
    handleSensor deadLine 0 { dueState with timer := 100 }
        = some (SENS_NOT_READ, { dueState with timer := 100 }) ∧
      ∃ st2, sensorStep deadLine 0 { dueState with timer := 100 } = some st2 ∧
        st2.data = dueState.data ∧ st2.sensError = 0 ∧ st2.timers = dueState.timers := by
  obtain ⟨h1, _, h3⟩ :=
    (sensorStep_not_due deadLine 0 { dueState with timer := 100 }).1 (by decide)
  exact ⟨h1, h3⟩

/-- Claim C13: for an index of `NUM_TIMERS` or more, `resetTimer` leaves the
whole state, the snapshots included, as it is, and `getTimeDiff` returns 0
whatever the tick counter holds. -/
theorem timer_index_out_of_range (st : State) (index : Nat) (h : NUM_TIMERS ≤ index) :
    resetTimer st index = st ∧ getTimeDiff st index = 0 ∧
      ∀ k, getTimeDiff (tickISR^[k] st) index = 0 := by
  have hn : ¬ index < NUM_TIMERS := by omega
  refine ⟨?_, ?_, ?_⟩
  · unfold resetTimer; rw [if_neg hn]
  · unfold getTimeDiff; rw [if_neg hn]
  · intro k; unfold getTimeDiff; rw [if_neg hn]

/-- Witness for C13: index 4 with the tick counter at 40000. -/
theorem timer_index_out_of_range_witness :
    resetTimer dueState 4 = dueState ∧ getTimeDiff dueState 4 = 0 :=
  ⟨(timer_index_out_of_range dueState 4 (by decide)).1,
    (timer_index_out_of_range dueState 4 (by decide)).2.1⟩

theorem readBit_toggleBit (r b c : Nat) (hb : b < 8) (hc : c < 8) :
    readBit (toggleBit r b) c = if c = b then 1 - readBit r b else readBit r c := by
  unfold toggleBit
  rw [readBit_setBit _ _ _ _ hb hc]
  have h1 := readBit_le_one r b
  by_cases hcb : c = b
  · rw [if_pos hcb, if_pos hcb]
    by_cases hz : readBit r b = 0
    · rw [if_pos hz, hz]; rfl
    · rw [if_neg hz]
      have : readBit r b = 1 := by omega
      rw [this]; rfl
  · rw [if_neg hcb, if_neg hcb]

theorem toggleBit_lt (r b : Nat) : toggleBit r b < 256 := by
  unfold toggleBit
  exact setBit_lt _ _ _

/-- Claim C15: for an 8-bit register value `r`, a bit index `b < 8` and any
`v`, after `setBit(r, b, v)` `readBit(r, b)` is 1 if `v != 0` and 0 if
`v = 0`, every other bit reads as before, the result is again an 8-bit value,
and `toggleBit` applied twice to the same bit restores `r`. -/
theorem setBit_readBit_contract (r b v : Nat) (hr : r < 256) (hb : b < 8) :
    readBit (setBit r b v) b = (if v = 0 then 0 else 1) ∧
    (∀ c, c < 8 → c ≠ b → readBit (setBit r b v) c = readBit r c) ∧
    setBit r b v < 256 ∧
    toggleBit (toggleBit r b) b = r := by
  refine ⟨?_, ?_, setBit_lt r b v, ?_⟩
  · rw [readBit_setBit r b v b hb hb, if_pos rfl]
  · intro c hc hcb
    rw [readBit_setBit r b v c hb hc, if_neg hcb]
  · have hbit : ∀ c, c < 8 → readBit (toggleBit (toggleBit r b) b) c = readBit r c := by
      intro c hc
      rw [readBit_toggleBit _ _ _ hb hc, readBit_toggleBit _ _ _ hb hb, if_pos rfl]
      have h1 := readBit_le_one r b
      by_cases hcb : c = b
      · rw [if_pos hcb, hcb]; omega
      · rw [if_neg hcb, readBit_toggleBit _ _ _ hb hc, if_neg hcb]
    rw [byte_eq_bits _ (toggleBit_lt (toggleBit r b) b)]
    rw [hbit 7 (by norm_num), hbit 6 (by norm_num), hbit 5 (by norm_num), hbit 4 (by norm_num),
      hbit 3 (by norm_num), hbit 2 (by norm_num), hbit 1 (by norm_num), hbit 0 (by norm_num)]
    exact (byte_eq_bits r hr).symm

/-- Witness for C15: register `0xA5`, bit 3. -/
theorem setBit_readBit_contract_witness :
    readBit (setBit 165 3 1) 3 = 1 ∧ readBit (setBit 165 3 1) 7 = readBit 165 7 ∧
      toggleBit (toggleBit 165 3) 3 = 165 := by
  obtain ⟨h1, h2, _, h4⟩ := setBit_readBit_contract 165 3 1 (by decide) (by decide)
  exact ⟨h1, h2 7 (by decide) (by decide), h4⟩

/-! ## Heater, decoded values, light and clock -/

/-- Claim C18: after `handleHeater` the heater bit of `PORTA` is 1 exactly
when `data[DAT_TEMP_OK]` is non-zero and `data[DAT_TEMP]` is at most the
active target (`options[OPT_NIGHT_TEMP]` at night, `options[OPT_DAY_TEMP]`
otherwise), and 0 in every other case; so with the temperature validity flag
at 0 the heater is off. -/
theorem handleHeater_bit (st : State) :
    (readBit (handleHeater st).PORTA HEAT = 1 ↔
      st.data DAT_TEMP_OK ≠ 0 ∧
      st.data DAT_TEMP ≤ (if st.data DAT_DAYTIME = DAYTIME_NIGHT then st.options OPT_NIGHT_TEMP
        else st.options OPT_DAY_TEMP)) ∧
    (readBit (handleHeater st).PORTA HEAT = 0 ↔
      ¬ (st.data DAT_TEMP_OK ≠ 0 ∧
      st.data DAT_TEMP ≤ (if st.data DAT_DAYTIME = DAYTIME_NIGHT then st.options OPT_NIGHT_TEMP
        else st.options OPT_DAY_TEMP))) ∧
    (st.data DAT_TEMP_OK = 0 → readBit (handleHeater st).PORTA HEAT = 0) := by
  have hoff : (st.data DAT_TEMP_OK = 0 ∨
      (if st.data DAT_DAYTIME = DAYTIME_NIGHT then st.options OPT_NIGHT_TEMP
        else st.options OPT_DAY_TEMP) < st.data DAT_TEMP) →
      readBit (handleHeater st).PORTA HEAT = 0 := by
    intro h
    unfold handleHeater
    simp only []
    rw [if_pos h]
    show readBit (setBit st.PORTA HEAT 0) HEAT = 0
    rw [readBit_setBit _ _ _ _ (by decide) (by decide)]
    simp
  have hon : ¬ (st.data DAT_TEMP_OK = 0 ∨
      (if st.data DAT_DAYTIME = DAYTIME_NIGHT then st.options OPT_NIGHT_TEMP
        else st.options OPT_DAY_TEMP) < st.data DAT_TEMP) →
      readBit (handleHeater st).PORTA HEAT = 1 := by
    intro h
    unfold handleHeater
    simp only []
    rw [if_neg h]
    show readBit (setBit st.PORTA HEAT 1) HEAT = 1
    rw [readBit_setBit _ _ _ _ (by decide) (by decide)]
    simp
  by_cases hc : st.data DAT_TEMP_OK = 0 ∨
      (if st.data DAT_DAYTIME = DAYTIME_NIGHT then st.options OPT_NIGHT_TEMP
        else st.options OPT_DAY_TEMP) < st.data DAT_TEMP
  · have h0 := hoff hc
    refine ⟨?_, ?_, fun _ => h0⟩
    · constructor
      · intro h1; rw [h0] at h1; exact absurd h1 (by decide)
      · rintro ⟨hok, hle⟩
        rcases hc with hz | hlt
        · exact absurd hz hok
        · omega
    · constructor
      · rintro _ ⟨hok, hle⟩
        rcases hc with hz | hlt
        · exact absurd hz hok
        · omega
      · intro _; exact h0
  · have h1 := hon hc
    have hok : st.data DAT_TEMP_OK ≠ 0 := fun hz => hc (Or.inl hz)
    have hle : st.data DAT_TEMP ≤ (if st.data DAT_DAYTIME = DAYTIME_NIGHT then
        st.options OPT_NIGHT_TEMP else st.options OPT_DAY_TEMP) := by
      by_contra hgt
      exact hc (Or.inr (by omega))
    refine ⟨?_, ?_, fun hz => absurd hz hok⟩
    · exact ⟨fun _ => ⟨hok, hle⟩, fun _ => h1⟩
    · constructor
      · intro h0; rw [h1] at h0; exact absurd h0 (by decide)
      · intro hn; exact absurd ⟨hok, hle⟩ hn

/-- Witness for C18: in `dueState` (33 degrees, valid, target 0) the heater is
off; with the target raised to 40 it is on; with the reading invalid it is
off again. -/
theorem handleHeater_bit_witness :
    readBit (handleHeater dueState).PORTA HEAT = 0 ∧
    readBit (handleHeater { dueState with options := fun _ => 40 }).PORTA HEAT = 1 ∧
    readBit (handleHeater { dueState with
      data := upd dueState.data DAT_TEMP_OK 0, options := fun _ => 40 }).PORTA HEAT = 0 :=
  ⟨(handleHeater_bit dueState).2.1.2 (by decide),
    (handleHeater_bit { dueState with options := fun _ => 40 }).1.2 (by decide),
    (handleHeater_bit { dueState with
      data := upd dueState.data DAT_TEMP_OK 0, options := fun _ => 40 }).2.2 (by decide)⟩

/-- Claim C19: for a payload with a valid checksum the stored humidity is
`(raw + 5) / 10 mod 256` with `raw = 256 b0 + b1`, and it equals the exact
rounded quotient exactly when `raw <= 2554`; the same holds for the
temperature when bit 7 of byte 2 is clear. -/
theorem handleSensor_stored_values (hw : Hw) (fuel : Nat) (st : State) (bits : List Nat)
    (hbits : sampledBits hw fuel st = some bits)
    (hsum : inputDataOf hw bits 4
      = (inputDataOf hw bits 0 + inputDataOf hw bits 1 + inputDataOf hw bits 2
          + inputDataOf hw bits 3) % 256) :
    ∃ st2, handleSensor hw fuel st = some (SENS_OK, st2) ∧
      st2.data DAT_HYGRO = (256 * inputDataOf hw bits 0 + inputDataOf hw bits 1 + 5) / 10 % 256 ∧
      (st2.data DAT_HYGRO = (256 * inputDataOf hw bits 0 + inputDataOf hw bits 1 + 5) / 10 ↔
        256 * inputDataOf hw bits 0 + inputDataOf hw bits 1 ≤ 2554) ∧
      (inputDataOf hw bits 2 < 128 →
        st2.data DAT_TEMP
          = (256 * inputDataOf hw bits 2 + inputDataOf hw bits 3 + 5) / 10 % 256 ∧
        (st2.data DAT_TEMP = (256 * inputDataOf hw bits 2 + inputDataOf hw bits 3 + 5) / 10 ↔
          256 * inputDataOf hw bits 2 + inputDataOf hw bits 3 ≤ 2554)) := by
  obtain ⟨st1, hcall, _, _, _⟩ := handleSensor_sampled hw fuel st bits hbits
  obtain ⟨hret, _, _, _, _, _, hh, _, ht⟩ :=
    decode_valid (inputDataOf hw bits) st1 hsum.symm
      (inputDataOf_lt hw bits 0 (by norm_num)) (inputDataOf_lt hw bits 1 (by norm_num))
      (inputDataOf_lt hw bits 2 (by norm_num)) (inputDataOf_lt hw bits 3 (by norm_num))
  refine ⟨(decode (inputDataOf hw bits) st1).2, ?_, hh, ?_, ?_⟩
  · rw [hcall, ← hret]
  · rw [hh]; omega
  · intro htop
    have hnot : ¬ 128 ≤ inputDataOf hw bits 2 := by omega
    rw [if_neg hnot] at ht
    refine ⟨ht, ?_⟩
    rw [ht]; omega

set_option maxRecDepth 100000 in
/-- Witness for C19: the payload `[0x0A, 0x00, 0x00, 0xC8, 0xD2]` (raw
humidity 2560, raw temperature 200) stores humidity 0, which is 256 mod 256,
and temperature 20. -/
theorem handleSensor_stored_values_witness :
    ∃ st2, handleSensor (lineDriver (bitsOfBytes [10, 0, 0, 200, 210])) 1 dueState
        = some (SENS_OK, st2) ∧
      st2.data DAT_HYGRO = 0 ∧ st2.data DAT_TEMP = 20 := by
  obtain ⟨st2, h, hh, _, ht⟩ :=
    handleSensor_stored_values (lineDriver (bitsOfBytes [10, 0, 0, 200, 210])) 1 dueState
      (bitsOfBytes [10, 0, 0, 200, 210]) (by decide) (by decide)
  refine ⟨st2, h, ?_, ?_⟩
  · rw [hh]; decide
  · rw [(ht (by decide)).1]; decide

theorem setDuty_le (duty : Nat → Nat) (r g b m c : Nat) (hr : r ≤ m) (hg : g ≤ m) (hb : b ≤ m)
    (hc : c < 3) : setDuty duty r g b c ≤ m := by
  unfold setDuty upd COL_RED COL_GRE COL_BLU
  interval_cases c <;> simp <;> assumption

theorem lightOf_le (st : State) : lightOf st ≤ 3 := by
  unfold lightOf LIGHT_OFF LIGHT_ON LIGHT_DAY LIGHT_NIGHT
  split_ifs <;> omega

/-- Claim C14 (as amended): when the six colour options are at most
`MAX_PWM`, every call of `handleLight` that writes the duty table (an
option under the cursor is a colour, or the light state changed) leaves all
three entries in 0..100, a call that does not write leaves the table as it
is, and so a table within 0..100 stays within 0..100. -/
theorem handleLight_duty_range (st : State)
    (hopt : ∀ i, (OPT_DAY_RED ≤ i ∧ i ≤ OPT_DAY_BLU) ∨ (OPT_NIGHT_RED ≤ i ∧ i ≤ OPT_NIGHT_BLU) →
      st.options i ≤ MAX_PWM) :
    (lightOptionOf st ≠ 0 ∨ lightOf st ≠ st.lastLight →
      ∀ c, c < 3 → (handleLight st).duty c ≤ MAX_PWM) ∧
    (¬ (lightOptionOf st ≠ 0 ∨ lightOf st ≠ st.lastLight) → (handleLight st).duty = st.duty) ∧
    ((∀ c, c < 3 → st.duty c ≤ MAX_PWM) → ∀ c, c < 3 → (handleLight st).duty c ≤ MAX_PWM) := by
  have hwrite : lightOptionOf st ≠ 0 ∨ lightOf st ≠ st.lastLight →
      ∀ c, c < 3 → (handleLight st).duty c ≤ MAX_PWM := by
    intro hw c hc
    have h3 := lightOf_le st
    unfold handleLight
    simp only []
    rw [if_pos hw]
    by_cases h0 : lightOf st = LIGHT_OFF
    · rw [if_pos h0]
      exact setDuty_le _ _ _ _ _ _ (Nat.zero_le _) (Nat.zero_le _) (Nat.zero_le _) hc
    · rw [if_neg h0]
      by_cases h1 : lightOf st = LIGHT_ON
      · rw [if_pos h1]
        exact setDuty_le _ _ _ _ _ _ (le_refl _) (le_refl _) (le_refl _) hc
      · rw [if_neg h1]
        by_cases h2 : lightOf st = LIGHT_DAY
        · rw [if_pos h2]
          exact setDuty_le _ _ _ _ _ _ (hopt _ (Or.inl (by decide)))
            (hopt _ (Or.inl (by decide))) (hopt _ (Or.inl (by decide))) hc
        · rw [if_neg h2]
          by_cases h3n : lightOf st = LIGHT_NIGHT
          · rw [if_pos h3n]
            exact setDuty_le _ _ _ _ _ _ (hopt _ (Or.inr (by decide)))
              (hopt _ (Or.inr (by decide))) (hopt _ (Or.inr (by decide))) hc
          · exfalso
            unfold LIGHT_OFF at h0
            unfold LIGHT_ON at h1
            unfold LIGHT_DAY at h2
            unfold LIGHT_NIGHT at h3n
            omega
  have hkeep : ¬ (lightOptionOf st ≠ 0 ∨ lightOf st ≠ st.lastLight) →
      (handleLight st).duty = st.duty := by
    intro hn
    unfold handleLight
    simp only []
    rw [if_neg hn]
  refine ⟨hwrite, hkeep, ?_⟩
  intro hd c hc
  by_cases hw : lightOptionOf st ≠ 0 ∨ lightOf st ≠ st.lastLight
  · exact hwrite hw c hc
  · rw [hkeep hw]; exact hd c hc

/-- Witness for C14: the default colours (day 25, 25, 0; night 15, 7, 0) in
automatic mode at day, coming from light off. -/
theorem handleLight_duty_range_witness :
    (handleLight defaultLightState).duty COL_RED ≤ MAX_PWM ∧
    (handleLight defaultLightState).duty COL_GRE ≤ MAX_PWM ∧
    (handleLight defaultLightState).duty COL_BLU ≤ MAX_PWM := by
  have h := (handleLight_duty_range defaultLightState
    (by
      intro i hi
      unfold OPT_DAY_RED OPT_DAY_BLU OPT_NIGHT_RED OPT_NIGHT_BLU at hi
      have hcases : i = 4 ∨ i = 5 ∨ i = 6 ∨ i = 10 ∨ i = 11 ∨ i = 12 := by omega
      rcases hcases with h | h | h | h | h | h <;> subst h <;> decide)).1
    (by decide)
  exact ⟨h 0 (by decide), h 1 (by decide), h 2 (by decide)⟩

/-- Counterexample to C14 as stated: with 200 in every option cell and the
cursor on the red day colour, `handleLight` writes a red duty of 200. -/
theorem handleLight_duty_range_counterexample :
    (lightOptionOf rawOptionsState ≠ 0 ∨ lightOf rawOptionsState ≠ rawOptionsState.lastLight) ∧
    (handleLight rawOptionsState).duty COL_RED = 200 ∧
    ¬ (handleLight rawOptionsState).duty COL_RED ≤ MAX_PWM := by
  decide

theorem getTimeDiff_clockCycle (st : State) (c index : Nat) :
    getTimeDiff { st with clockCycle := c } index = getTimeDiff st index := rfl

theorem resetTimer_options (st : State) (index : Nat) :
    (resetTimer st index).options = st.options ∧ (resetTimer st index).seconds = st.seconds ∧
      (resetTimer st index).data = st.data := by
  unfold resetTimer
  split <;> exact ⟨rfl, rfl, rfl⟩

/-- When the clock period has elapsed `handleTime` advances the clock and
stores the classification of the new time. -/
theorem handleTime_fired (st : State) (hclock : st.options OPT_CLOCK < 256)
    (hfire : CLOCK_PERIOD + st.options OPT_CLOCK ≤ getTimeDiff st T_CLOCK) :
    (handleTime st).options = carryClock st.seconds st.options ∧
    (handleTime st).data DAT_DAYTIME = daytimeOf (carryClock st.seconds st.options) := by
  have hmod : (CLOCK_PERIOD + st.options OPT_CLOCK) % 65536
      = CLOCK_PERIOD + st.options OPT_CLOCK := by
    apply Nat.mod_eq_of_lt
    unfold CLOCK_PERIOD
    omega
  have hcond : ({ st with clockCycle := (CLOCK_PERIOD + st.options OPT_CLOCK) % 65536 } :
      State).clockCycle
      ≤ getTimeDiff { st with clockCycle := (CLOCK_PERIOD + st.options OPT_CLOCK) % 65536 }
        T_CLOCK := by
    rw [getTimeDiff_clockCycle]
    show (CLOCK_PERIOD + st.options OPT_CLOCK) % 65536 ≤ getTimeDiff st T_CLOCK
    rw [hmod]; exact hfire
  have ho : (resetTimer { st with clockCycle := (CLOCK_PERIOD + st.options OPT_CLOCK) % 65536 }
      T_CLOCK).options = st.options := (resetTimer_options _ _).1
  have hs : (resetTimer { st with clockCycle := (CLOCK_PERIOD + st.options OPT_CLOCK) % 65536 }
      T_CLOCK).seconds = st.seconds := (resetTimer_options _ _).2.1
  unfold handleTime
  simp only []
  rw [if_pos hcond]
  simp only [ho, hs, upd, if_true, and_self]

theorem upd_apply (a : Nat → Nat) (i v j : Nat) :
    upd a i v j = if j = i then v else a j := rfl

/-- The carry chain leaves minutes in 0..59 and hours in 0..23 and touches no
other option. -/
theorem carryClock_spec (seconds : Nat) (options : Nat → Nat) :
    carryClock seconds options OPT_MIN ≤ 59 ∧ carryClock seconds options OPT_HOUR ≤ 23 ∧
    ∀ i, i ≠ OPT_MIN → i ≠ OPT_HOUR → carryClock seconds options i = options i := by
  unfold carryClock
  simp only [MAX_SEC, MAX_MIN, MAX_HOUR, OPT_MIN, OPT_HOUR]
  refine ⟨?_, ?_, ?_⟩
  · split_ifs <;> simp only [upd_apply] at * <;> norm_num at * <;> omega
  · split_ifs <;> simp only [upd_apply] at * <;> norm_num at * <;> omega
  · intro i h1 h2
    split_ifs <;> simp only [upd_apply, if_neg h1, if_neg h2]

theorem carryClock_lt (seconds : Nat) (options : Nat → Nat) (hopt : ∀ i, options i < 256)
    (i : Nat) : carryClock seconds options i < 256 := by
  obtain ⟨hm, hh, ho⟩ := carryClock_spec seconds options
  by_cases h1 : i = OPT_MIN
  · rw [h1]; omega
  · by_cases h2 : i = OPT_HOUR
    · rw [h2]; omega
    · rw [ho i h1 h2]; exact hopt i

/-- The stored daytime is day exactly when the current minute count lies in
the cyclic half-open interval from the day start to the night start, and
night otherwise. -/
theorem daytimeOf_spec (options : Nat → Nat) (hopt : ∀ i, options i < 256) :
    (daytimeOf options = DAYTIME_DAY ↔
      inDayInterval (60 * options OPT_DAY_HOUR + options OPT_DAY_MIN)
        (60 * options OPT_NIGHT_HOUR + options OPT_NIGHT_MIN)
        (60 * options OPT_HOUR + options OPT_MIN)) ∧
    (daytimeOf options = DAYTIME_NIGHT ↔
      ¬ inDayInterval (60 * options OPT_DAY_HOUR + options OPT_DAY_MIN)
        (60 * options OPT_NIGHT_HOUR + options OPT_NIGHT_MIN)
        (60 * options OPT_HOUR + options OPT_MIN)) := by
  have h1 := hopt OPT_DAY_HOUR
  have h2 := hopt OPT_DAY_MIN
  have h3 := hopt OPT_NIGHT_HOUR
  have h4 := hopt OPT_NIGHT_MIN
  have h5 := hopt OPT_HOUR
  have h6 := hopt OPT_MIN
  have e1 : (options OPT_DAY_HOUR * 60 + options OPT_DAY_MIN) % 65536
      = 60 * options OPT_DAY_HOUR + options OPT_DAY_MIN := by omega
  have e2 : (options OPT_NIGHT_HOUR * 60 + options OPT_NIGHT_MIN) % 65536
      = 60 * options OPT_NIGHT_HOUR + options OPT_NIGHT_MIN := by omega
  have e3 : (options OPT_HOUR * 60 + options OPT_MIN) % 65536
      = 60 * options OPT_HOUR + options OPT_MIN := by omega
  unfold daytimeOf inDayInterval
  simp only []
  rw [e1, e2, e3]
  unfold DAYTIME_DAY DAYTIME_NIGHT
  constructor
  · split_ifs <;> simp <;> omega
  · split_ifs <;> simp <;> omega

/-- Claim C20: when `handleTime` fires (the elapsed time of `T_CLOCK` is at
least `CLOCK_PERIOD + options[OPT_CLOCK]`), it leaves `options[OPT_MIN] <= 59`
and `options[OPT_HOUR] <= 23`, leaves the day and night start options alone,
and sets `data[DAT_DAYTIME]` to `DAYTIME_DAY` exactly when the minute count
`C` of the updated clock lies in the cyclic half-open interval from the day
start `D` to the night start `N`, and to `DAYTIME_NIGHT` otherwise. -/
theorem handleTime_daytime (st : State) (hopt : ∀ i, st.options i < 256)
    (hfire : CLOCK_PERIOD + st.options OPT_CLOCK ≤ getTimeDiff st T_CLOCK) :
    (handleTime st).options OPT_MIN ≤ 59 ∧ (handleTime st).options OPT_HOUR ≤ 23 ∧
    (∀ i, i ≠ OPT_MIN → i ≠ OPT_HOUR → (handleTime st).options i = st.options i) ∧
    ((handleTime st).data DAT_DAYTIME = DAYTIME_DAY ↔
      inDayInterval
        (60 * (handleTime st).options OPT_DAY_HOUR + (handleTime st).options OPT_DAY_MIN)
        (60 * (handleTime st).options OPT_NIGHT_HOUR + (handleTime st).options OPT_NIGHT_MIN)
        (60 * (handleTime st).options OPT_HOUR + (handleTime st).options OPT_MIN)) ∧
    ((handleTime st).data DAT_DAYTIME = DAYTIME_NIGHT ↔
      ¬ inDayInterval
        (60 * (handleTime st).options OPT_DAY_HOUR + (handleTime st).options OPT_DAY_MIN)
        (60 * (handleTime st).options OPT_NIGHT_HOUR + (handleTime st).options OPT_NIGHT_MIN)
        (60 * (handleTime st).options OPT_HOUR + (handleTime st).options OPT_MIN)) := by
  obtain ⟨ho, hd⟩ := handleTime_fired st (hopt OPT_CLOCK) hfire
  obtain ⟨hm, hh, hrest⟩ := carryClock_spec st.seconds st.options
  obtain ⟨hday, hnight⟩ :=
    daytimeOf_spec (carryClock st.seconds st.options) (carryClock_lt st.seconds st.options hopt)
  rw [ho, hd]
  exact ⟨hm, hh, hrest, hday, hnight⟩

/-- Witness for C20: at 07:59:59 with day from 08:00 to 22:00 the clock
advances to 08:00 and the stored daytime changes from night to day. -/
theorem handleTime_daytime_witness :
    clockState.data DAT_DAYTIME = DAYTIME_NIGHT ∧
    (handleTime clockState).options OPT_HOUR = 8 ∧
    (handleTime clockState).options OPT_MIN = 0 ∧
    (handleTime clockState).data DAT_DAYTIME = DAYTIME_DAY := by
  obtain ⟨_, _, _, hday, _⟩ := handleTime_daytime clockState
    (by
      intro i
      unfold clockState
      simp only []
      split_ifs <;> decide)
    (by decide)
  refine ⟨by decide, by decide, by decide, hday.2 ?_⟩
  unfold inDayInterval
  decide

/-! ## Iteration counts of the busy-wait loops -/

/-- The loop `waitWhile` ends with the timeout counter equal to its initial
value plus the number of executions of its body: at the cap when it aborts,
below the cap when the pin changed. -/
theorem waitWhile_iters (hw : Hw) (level : Bool) :
    ∀ (fuel timeout : Nat) (p : Poll), timeout < SENS_TIMEOUT → SENS_TIMEOUT ≤ timeout + fuel →
      (∃ p1, waitWhile hw level fuel timeout p = Wait.abort p1 ∧
        timeout + waitWhileIters hw level fuel timeout p = SENS_TIMEOUT) ∨
      (∃ t1 p1, waitWhile hw level fuel timeout p = Wait.done t1 p1 ∧ t1 < SENS_TIMEOUT ∧
        timeout + waitWhileIters hw level fuel timeout p = t1) := by
  intro fuel
  induction fuel with
  | zero => intro timeout p h1 h2; omega
  | succ n ih =>
    intro timeout p h1 h2
    unfold waitWhile waitWhileIters
    simp only []
    by_cases hs : hw.sensIn p.clk = level
    · rw [if_pos hs, if_pos hs]
      have hmod : (timeout + 1) % 65536 = timeout + 1 := by
        apply Nat.mod_eq_of_lt; unfold SENS_TIMEOUT at h1; omega
      rw [hmod]
      by_cases ht : timeout + 1 = SENS_TIMEOUT
      · rw [if_pos ht, if_pos ht]; exact Or.inl ⟨_, rfl, ht⟩
      · rw [if_neg ht, if_neg ht]
        rcases ih (timeout + 1) (observe hw p) (by omega) (by omega) with
          ⟨p1, e, hn⟩ | ⟨t1, p1, e, hlt, hn⟩
        · exact Or.inl ⟨p1, e, by omega⟩
        · exact Or.inr ⟨t1, p1, e, hlt, by omega⟩
    · rw [if_neg hs, if_neg hs]; exact Or.inr ⟨_, _, rfl, h1, rfl⟩

/-- The same for the first acknowledgement wait. -/
theorem waitAck1_iters (hw : Hw) :
    ∀ (fuel timeout : Nat) (p : Poll), timeout < SENS_TIMEOUT → SENS_TIMEOUT ≤ timeout + fuel →
      (∃ p1, waitAck1 hw fuel timeout p = Wait.abort p1 ∧
        timeout + waitAck1Iters hw fuel timeout p = SENS_TIMEOUT) ∨
      (∃ t1 p1, waitAck1 hw fuel timeout p = Wait.done t1 p1 ∧ t1 < SENS_TIMEOUT ∧
        timeout + waitAck1Iters hw fuel timeout p = t1) := by
  intro fuel
  induction fuel with
  | zero => intro timeout p h1 h2; omega
  | succ n ih =>
    intro timeout p h1 h2
    unfold waitAck1 waitAck1Iters
    simp only []
    by_cases hs : (observe hw p).TCNT0 < 30
    · rw [if_pos hs, if_pos hs]
      have hmod : (timeout + 1) % 65536 = timeout + 1 := by
        apply Nat.mod_eq_of_lt; unfold SENS_TIMEOUT at h1; omega
      rw [hmod]
      by_cases ht : timeout + 1 = SENS_TIMEOUT
      · rw [if_pos ht, if_pos ht]; exact Or.inl ⟨_, rfl, ht⟩
      · rw [if_neg ht, if_neg ht]
        rcases ih (timeout + 1) _ (by omega) (by omega) with
          ⟨p1, e, hn⟩ | ⟨t1, p1, e, hlt, hn⟩
        · exact Or.inl ⟨p1, e, by omega⟩
        · exact Or.inr ⟨t1, p1, e, hlt, by omega⟩
    · rw [if_neg hs, if_neg hs]; exact Or.inr ⟨_, _, rfl, h1, rfl⟩

/-- A pin that always reads `level` keeps `waitWhile` polling up to the cap. -/
theorem waitWhile_stuck (hw : Hw) (level : Bool) (hlevel : ∀ n, hw.sensIn n = level) :
    ∀ (fuel timeout : Nat) (p : Poll), timeout < SENS_TIMEOUT → SENS_TIMEOUT ≤ timeout + fuel →
      ∃ p1, waitWhile hw level fuel timeout p = Wait.abort p1 := by
  intro fuel
  induction fuel with
  | zero => intro timeout p h1 h2; omega
  | succ n ih =>
    intro timeout p h1 h2
    unfold waitWhile
    simp only []
    rw [if_pos (hlevel p.clk)]
    have hmod : (timeout + 1) % 65536 = timeout + 1 := by
      apply Nat.mod_eq_of_lt; unfold SENS_TIMEOUT at h1; omega
    rw [hmod]
    by_cases ht : timeout + 1 = SENS_TIMEOUT
    · rw [if_pos ht]; exact ⟨_, rfl⟩
    · rw [if_neg ht]
      exact ih (timeout + 1) _ (by omega) (by omega)

/-- A pin that never reads `level` lets `waitWhile` fall through at the
first poll. -/
theorem waitWhile_skip (hw : Hw) (level : Bool) (fuel timeout : Nat) (p : Poll)
    (h : hw.sensIn p.clk ≠ level) :
    waitWhile hw level (fuel + 1) timeout p = Wait.done timeout (observe hw p) := by
  unfold waitWhile
  simp only []
  rw [if_neg h]

theorem afterPulse_stage1 (hw : Hw) (st2 : State) (p0 p : Poll)
    (h1 : waitAck1 hw SENS_TIMEOUT 0 { p0 with TCNT0 := 0 } = Wait.abort p) :
    ∃ s, afterPulse hw st2 p0 = some (Tx.abort 2 s) := by
  unfold afterPulse
  simp only []
  rw [h1]
  exact ⟨_, rfl⟩

theorem afterPulse_stage2 (hw : Hw) (st2 : State) (p0 p1 p : Poll) (t1 : Nat)
    (h1 : waitAck1 hw SENS_TIMEOUT 0 { p0 with TCNT0 := 0 } = Wait.done t1 p1)
    (h2 : waitWhile hw false SENS_TIMEOUT t1 p1 = Wait.abort p) :
    ∃ s, afterPulse hw st2 p0 = some (Tx.abort 3 s) := by
  unfold afterPulse
  simp only []
  rw [h1]
  simp only []
  rw [h2]
  exact ⟨_, rfl⟩

theorem afterPulse_stage3 (hw : Hw) (st2 : State) (p0 p1 p2 p : Poll) (t1 t2 : Nat)
    (h1 : waitAck1 hw SENS_TIMEOUT 0 { p0 with TCNT0 := 0 } = Wait.done t1 p1)
    (h2 : waitWhile hw false SENS_TIMEOUT t1 p1 = Wait.done t2 p2)
    (h3 : waitWhile hw true SENS_TIMEOUT t2 p2 = Wait.abort p) :
    ∃ s, afterPulse hw st2 p0 = some (Tx.abort 4 s) := by
  unfold afterPulse
  simp only []
  rw [h1]
  simp only []
  rw [h2]
  simp only []
  rw [h3]
  exact ⟨_, rfl⟩

/-- The acknowledgement phase ends normally exactly when all three waits do. -/
theorem ackEnd_some (hw : Hw) (p0 p3 : Poll) (h : ackEnd hw p0 = some p3) :
    ∃ t1 p1 t2 p2 t3,
      waitAck1 hw SENS_TIMEOUT 0 { p0 with TCNT0 := 0 } = Wait.done t1 p1 ∧
      waitWhile hw false SENS_TIMEOUT t1 p1 = Wait.done t2 p2 ∧
      waitWhile hw true SENS_TIMEOUT t2 p2 = Wait.done t3 p3 := by
  unfold ackEnd at h
  cases h1 : waitAck1 hw SENS_TIMEOUT 0 { p0 with TCNT0 := 0 } with
  | fuel => rw [h1] at h; exact absurd h (by simp)
  | abort p => rw [h1] at h; exact absurd h (by simp)
  | done t1 p1 =>
    rw [h1] at h
    simp only [] at h
    cases h2 : waitWhile hw false SENS_TIMEOUT t1 p1 with
    | fuel => rw [h2] at h; exact absurd h (by simp)
    | abort p => rw [h2] at h; exact absurd h (by simp)
    | done t2 p2 =>
      rw [h2] at h
      simp only [] at h
      cases h3 : waitWhile hw true SENS_TIMEOUT t2 p2 with
      | fuel => rw [h3] at h; exact absurd h (by simp)
      | abort p => rw [h3] at h; exact absurd h (by simp)
      | done t3 p4 =>
        rw [h3] at h
        have hp : p4 = p3 := Option.some.inj h
        subst hp
        exact ⟨t1, p1, t2, p2, t3, rfl, h2, h3⟩

theorem afterPulse_sampling (hw : Hw) (st2 : State) (p0 p3 p : Poll) (code : Nat)
    (ha : ackEnd hw p0 = some p3)
    (h4 : sampleLoop hw 41 0 0 p3 (List.replicate 40 0) = Sample.abort code p) :
    ∃ s, afterPulse hw st2 p0 = some (Tx.abort code s) := by
  obtain ⟨t1, p1, t2, p2, t3, h1, h2, h3⟩ := ackEnd_some hw p0 p3 ha
  unfold afterPulse
  simp only []
  rw [h1]
  simp only []
  rw [h2]
  simp only []
  rw [h3]
  simp only []
  rw [h4]
  exact ⟨_, rfl⟩

/-- An early return of the transaction is the code of the call. -/
theorem retCode_of_abort (hw : Hw) (fuel : Nat) (st : State) (p0 : Poll) (code : Nat)
    (hdue : SENS_PERIOD < getTimeDiff st T_WAIT) (hp : pulseWaitOf hw fuel st = some p0)
    (h : ∃ s, afterPulse hw (pulseStart st) p0 = some (Tx.abort code s)) :
    retCode hw fuel st = some code := by
  obtain ⟨s, hs⟩ := h
  unfold retCode handleSensor transaction
  rw [if_pos hdue, hp]
  simp only []
  rw [hs]
  rfl

/-- The inner waits of the sampling loop execute their bodies at most
`SENS_TIMEOUT - timeout` times in total. -/
theorem sampleIters_le (hw : Hw) :
    ∀ (fuel index timeout : Nat) (p : Poll), timeout < SENS_TIMEOUT →
      timeout + sampleIters hw fuel index timeout p ≤ SENS_TIMEOUT := by
  intro fuel
  induction fuel with
  | zero =>
    intro index timeout p h
    unfold sampleIters
    omega
  | succ n ih =>
    intro index timeout p h
    unfold sampleIters
    by_cases hi : index < 40
    · rw [if_pos hi]
      simp only []
      rcases waitWhile_iters hw false SENS_TIMEOUT timeout p h (by omega) with
        ⟨p1, e1, hn1⟩ | ⟨t1, p1, e1, ht1, hn1⟩
      · rw [e1]; simp only []; omega
      · rw [e1]
        simp only []
        rcases waitWhile_iters hw true SENS_TIMEOUT t1 { p1 with TCNT0 := 0 } ht1 (by omega) with
          ⟨p2, e2, hn2⟩ | ⟨t2, p2, e2, ht2, hn2⟩
        · rw [e2]; simp only []; omega
        · rw [e2]
          simp only []
          have := ih (index + 1) t2 (observe hw p2) ht2
          omega
    · rw [if_neg hi]; omega

/-- The three acknowledgement waits share one budget: together they execute
their bodies at most `SENS_TIMEOUT` times, and the stage that aborts does so
when the total, not its own count, reaches `SENS_TIMEOUT`. -/
theorem ackIters_spec (hw : Hw) (p0 : Poll) :
    (ackIters hw p0).1 + (ackIters hw p0).2.1 + (ackIters hw p0).2.2 ≤ SENS_TIMEOUT ∧
    (∀ p, waitAck1 hw SENS_TIMEOUT 0 { p0 with TCNT0 := 0 } = Wait.abort p →
      (ackIters hw p0).1 = SENS_TIMEOUT) ∧
    (∀ t1 p1 p, waitAck1 hw SENS_TIMEOUT 0 { p0 with TCNT0 := 0 } = Wait.done t1 p1 →
      waitWhile hw false SENS_TIMEOUT t1 p1 = Wait.abort p →
      (ackIters hw p0).1 = t1 ∧ (ackIters hw p0).1 + (ackIters hw p0).2.1 = SENS_TIMEOUT) ∧
    (∀ t1 p1 t2 p2 p, waitAck1 hw SENS_TIMEOUT 0 { p0 with TCNT0 := 0 } = Wait.done t1 p1 →
      waitWhile hw false SENS_TIMEOUT t1 p1 = Wait.done t2 p2 →
      waitWhile hw true SENS_TIMEOUT t2 p2 = Wait.abort p →
      (ackIters hw p0).1 + (ackIters hw p0).2.1 = t2 ∧
      (ackIters hw p0).1 + (ackIters hw p0).2.1 + (ackIters hw p0).2.2 = SENS_TIMEOUT) := by
  have hz : (0 : Nat) < SENS_TIMEOUT := by decide
  unfold ackIters
  simp only []
  rcases waitAck1_iters hw SENS_TIMEOUT 0 { p0 with TCNT0 := 0 } hz (by omega) with
    ⟨q1, e1, hn1⟩ | ⟨t1, q1, e1, ht1, hn1⟩
  · rw [e1]
    simp only []
    refine ⟨by omega, fun _ _ => by omega, ?_, ?_⟩
    · intro t1 p1 p h; exact absurd h (by simp)
    · intro t1 p1 t2 p2 p h; exact absurd h (by simp)
  · rw [e1]
    simp only []
    rcases waitWhile_iters hw false SENS_TIMEOUT t1 q1 ht1 (by omega) with
      ⟨q2, e2, hn2⟩ | ⟨t2, q2, e2, ht2, hn2⟩
    · rw [e2]
      simp only []
      refine ⟨by omega, fun p h => absurd h (by simp), ?_, ?_⟩
      · intro t1' p1' p h _
        simp only [Wait.done.injEq] at h
        omega
      · intro t1' p1' t2' p2' p h h2
        simp only [Wait.done.injEq] at h
        obtain ⟨ht, hp⟩ := h
        subst ht; subst hp
        rw [e2] at h2
        exact absurd h2 (by simp)
    · rw [e2]
      simp only []
      rcases waitWhile_iters hw true SENS_TIMEOUT t2 q2 ht2 (by omega) with
        ⟨q3, e3, hn3⟩ | ⟨t3, q3, e3, ht3, hn3⟩
      · refine ⟨by omega, fun p h => absurd h (by simp), ?_, ?_⟩
        · intro t1' p1' p h h2
          simp only [Wait.done.injEq] at h
          obtain ⟨ht, hp⟩ := h
          subst ht; subst hp
          rw [e2] at h2
          exact absurd h2 (by simp)
        · intro t1' p1' t2' p2' p h h2 _
          simp only [Wait.done.injEq] at h
          obtain ⟨ht, hp⟩ := h
          subst ht; subst hp
          rw [e2] at h2
          simp only [Wait.done.injEq] at h2
          omega
      · refine ⟨by omega, fun p h => absurd h (by simp), ?_, ?_⟩
        · intro t1' p1' p h h2
          simp only [Wait.done.injEq] at h
          obtain ⟨ht, hp⟩ := h
          subst ht; subst hp
          rw [e2] at h2
          exact absurd h2 (by simp)
        · intro t1' p1' t2' p2' p h h2 h3
          simp only [Wait.done.injEq] at h
          obtain ⟨ht, hp⟩ := h
          subst ht; subst hp
          rw [e2] at h2
          simp only [Wait.done.injEq] at h2
          obtain ⟨ht, hp⟩ := h2
          subst ht; subst hp
          rw [e3] at h3
          exact absurd h3 (by simp)

theorem decode_code (b : Nat → Nat) (st : State) :
    (decode b st).1 = 7 ∨ (decode b st).1 = SENS_OK := by
  unfold decode
  simp only []
  split_ifs <;> simp

theorem waitWhile_skip_cap (hw : Hw) (level : Bool) (timeout : Nat) (p : Poll)
    (h : hw.sensIn p.clk ≠ level) :
    waitWhile hw level SENS_TIMEOUT timeout p = Wait.done timeout (observe hw p) :=
  waitWhile_skip hw level 64999 timeout p h

/-- With the pin high at every poll, a first acknowledgement wait that ends
below the cap is followed by an empty second wait and a third wait that runs
into the cap: the call returns 4. -/
theorem retCode_high_done (hw : Hw) (fuel : Nat) (st : State) (p0 p1 : Poll) (t1 : Nat)
    (hdue : SENS_PERIOD < getTimeDiff st T_WAIT) (hp : pulseWaitOf hw fuel st = some p0)
    (hhigh : ∀ n, hw.sensIn n = true)
    (h1 : waitAck1 hw SENS_TIMEOUT 0 { p0 with TCNT0 := 0 } = Wait.done t1 p1) :
    retCode hw fuel st = some 4 := by
  have ht1 : t1 < SENS_TIMEOUT := by
    rcases waitAck1_total hw SENS_TIMEOUT 0 { p0 with TCNT0 := 0 } (by decide) (by omega) with
      ⟨q, e⟩ | ⟨t, q, e, hlt⟩
    · rw [e] at h1; exact absurd h1 (by simp)
    · rw [e] at h1
      simp only [Wait.done.injEq] at h1
      omega
  have h2 : waitWhile hw false SENS_TIMEOUT t1 p1 = Wait.done t1 (observe hw p1) :=
    waitWhile_skip_cap hw false t1 p1 (by rw [hhigh]; decide)
  obtain ⟨q, h3⟩ := waitWhile_stuck hw true hhigh SENS_TIMEOUT t1 (observe hw p1) ht1 (by omega)
  exact retCode_of_abort hw fuel st p0 4 hdue hp
    (afterPulse_stage3 hw _ p0 p1 _ q t1 t1 h1 h2 h3)

/-- With the pin low at every poll, a first acknowledgement wait that ends
below the cap is followed by a second wait that runs into the cap: the call
returns 3. -/
theorem retCode_low_done (hw : Hw) (fuel : Nat) (st : State) (p0 p1 : Poll) (t1 : Nat)
    (hdue : SENS_PERIOD < getTimeDiff st T_WAIT) (hp : pulseWaitOf hw fuel st = some p0)
    (hlow : ∀ n, hw.sensIn n = false)
    (h1 : waitAck1 hw SENS_TIMEOUT 0 { p0 with TCNT0 := 0 } = Wait.done t1 p1) :
    retCode hw fuel st = some 3 := by
  have ht1 : t1 < SENS_TIMEOUT := by
    rcases waitAck1_total hw SENS_TIMEOUT 0 { p0 with TCNT0 := 0 } (by decide) (by omega) with
      ⟨q, e⟩ | ⟨t, q, e, hlt⟩
    · rw [e] at h1; exact absurd h1 (by simp)
    · rw [e] at h1
      simp only [Wait.done.injEq] at h1
      omega
  obtain ⟨q, h2⟩ := waitWhile_stuck hw false hlow SENS_TIMEOUT t1 p1 ht1 (by omega)
  exact retCode_of_abort hw fuel st p0 3 hdue hp (afterPulse_stage2 hw _ p0 p1 q t1 h1 h2)

/-- Outside the timing of the target: were `TCNT0` to jump by 30 counts per
observation, which timer 0 at one count per 8 CPU cycles cannot do between
the store `TCNT0 = 0` and the loop test that follows it, a line stuck high
would end the first wait at once and run into the cap in the third, with
code 4.  This is why the clause for the high line is stated for `Hw.timely`. -/
theorem retCode_untimely_high :
    (∀ n, stuckHighFast.sensIn n = true) ∧ ¬ stuckHighFast.timely ∧
      retCode stuckHighFast 1 dueState = some 4 := by
  have h4 : retCode stuckHighFast 1 dueState = some 4 :=
    retCode_high_done stuckHighFast 1 dueState ⟨1, 40018, 30⟩ ⟨2, 40036, 30⟩ 0 (by decide)
      (by decide) (fun _ => rfl) (by decide)
  refine ⟨fun _ => rfl, ?_, h4⟩
  intro h
  exact absurd (h 0) (by decide)

/-- The ways in which a due call whose request pulse has ended gets through
the acknowledgement phase, with the code it returns and the number of
polling iterations of the three waits: an abort happens exactly when the
running total reaches `SENS_TIMEOUT`. -/
theorem ack_stage_cases (hw : Hw) (fuel : Nat) (st : State) (p0 : Poll)
    (hdue : SENS_PERIOD < getTimeDiff st T_WAIT) (hp : pulseWaitOf hw fuel st = some p0) :
    (retCode hw fuel st = some 2 ∧ (ackIters hw p0).1 = SENS_TIMEOUT ∧
      (ackIters hw p0).2.1 = 0 ∧ (ackIters hw p0).2.2 = 0) ∨
    (retCode hw fuel st = some 3 ∧ (ackIters hw p0).1 < SENS_TIMEOUT ∧
      (ackIters hw p0).1 + (ackIters hw p0).2.1 = SENS_TIMEOUT ∧ (ackIters hw p0).2.2 = 0) ∨
    (retCode hw fuel st = some 4 ∧ (ackIters hw p0).1 + (ackIters hw p0).2.1 < SENS_TIMEOUT ∧
      (ackIters hw p0).1 + (ackIters hw p0).2.1 + (ackIters hw p0).2.2 = SENS_TIMEOUT) ∨
    ((retCode hw fuel st = some 5 ∨ retCode hw fuel st = some 6 ∨
        retCode hw fuel st = some SENS_OK ∨ retCode hw fuel st = some 7) ∧
      (ackIters hw p0).1 + (ackIters hw p0).2.1 + (ackIters hw p0).2.2 < SENS_TIMEOUT ∧
      ∃ p3, ackEnd hw p0 = some p3) := by
  have hz : (0 : Nat) < SENS_TIMEOUT := by decide
  rcases waitAck1_iters hw SENS_TIMEOUT 0 { p0 with TCNT0 := 0 } hz (by omega) with
    ⟨q1, e1, hn1⟩ | ⟨t1, q1, e1, ht1, hn1⟩
  · refine Or.inl ⟨retCode_of_abort hw fuel st p0 2 hdue hp (afterPulse_stage1 hw _ p0 q1 e1),
      ?_, ?_, ?_⟩
    · unfold ackIters; simp only []; rw [e1]; simp only []; omega
    · unfold ackIters; simp only []; rw [e1]
    · unfold ackIters; simp only []; rw [e1]
  · rcases waitWhile_iters hw false SENS_TIMEOUT t1 q1 ht1 (by omega) with
      ⟨q2, e2, hn2⟩ | ⟨t2, q2, e2, ht2, hn2⟩
    · refine Or.inr (Or.inl ⟨retCode_of_abort hw fuel st p0 3 hdue hp
        (afterPulse_stage2 hw _ p0 q1 q2 t1 e1 e2), ?_, ?_, ?_⟩)
      · unfold ackIters; simp only []; rw [e1]; simp only []; rw [e2]; simp only []; omega
      · unfold ackIters; simp only []; rw [e1]; simp only []; rw [e2]; simp only []; omega
      · unfold ackIters; simp only []; rw [e1]; simp only []; rw [e2]
    · rcases waitWhile_iters hw true SENS_TIMEOUT t2 q2 ht2 (by omega) with
        ⟨q3, e3, hn3⟩ | ⟨t3, q3, e3, ht3, hn3⟩
      · refine Or.inr (Or.inr (Or.inl ⟨retCode_of_abort hw fuel st p0 4 hdue hp
          (afterPulse_stage3 hw _ p0 q1 q2 q3 t1 t2 e1 e2 e3), ?_, ?_⟩))
        · unfold ackIters; simp only []; rw [e1]; simp only []; rw [e2]; simp only []; omega
        · unfold ackIters; simp only []; rw [e1]; simp only []; rw [e2]; simp only []; omega
      · have ha : ackEnd hw p0 = some q3 := by
          unfold ackEnd; rw [e1]; simp only []; rw [e2]; simp only []; rw [e3]
        refine Or.inr (Or.inr (Or.inr ⟨?_, ?_, q3, ha⟩))
        · rcases sampleLoop_total hw 41 0 0 q3 (List.replicate 40 0) (by decide) (by omega)
            (by omega) with ⟨code, q4, e4, hcode⟩ | ⟨bits, q4, e4⟩
          · have hr := retCode_of_abort hw fuel st p0 code hdue hp
              (afterPulse_sampling hw _ p0 q3 q4 code ha e4)
            rcases hcode with h5 | h6
            · rw [h5] at hr; exact Or.inl hr
            · rw [h6] at hr; exact Or.inr (Or.inl hr)
          · have hex : ∃ s, retCode hw fuel st
                = some (decode (inputDataOf hw bits) s).1 := by
              unfold retCode handleSensor transaction
              rw [if_pos hdue, hp]
              simp only []
              unfold afterPulse
              simp only []
              rw [e1]; simp only []
              rw [e2]; simp only []
              rw [e3]; simp only []
              rw [e4]
              exact ⟨_, rfl⟩
            obtain ⟨s, hr⟩ := hex
            rcases decode_code (inputDataOf hw bits) s with h7 | h1
            · rw [h7] at hr; exact Or.inr (Or.inr (Or.inr hr))
            · rw [h1] at hr; exact Or.inr (Or.inr (Or.inl hr))
        · unfold ackIters; simp only []; rw [e1]; simp only []; rw [e2]; simp only []; omega

/-! ## Claims on the bounds of the busy-wait loops -/

/-- Claim C16: for every behaviour of the sensor line and of `TCNT0`, each
polling loop of `handleSensor` ends within the fuel `SENS_TIMEOUT` (its body
runs at most `SENS_TIMEOUT - timeout` times), so once the request pulse has
ended the transaction and the call return; the three acknowledgement waits
together execute at most `SENS_TIMEOUT` polling iterations, and so do the
waits of the 40 bit slots together. -/
theorem handleSensor_bounded_waits (hw : Hw) (p0 : Poll) :
    (∀ level timeout p, timeout < SENS_TIMEOUT →
      waitWhile hw level SENS_TIMEOUT timeout p ≠ Wait.fuel ∧
      timeout + waitWhileIters hw level SENS_TIMEOUT timeout p ≤ SENS_TIMEOUT) ∧
    (∀ timeout p, timeout < SENS_TIMEOUT →
      waitAck1 hw SENS_TIMEOUT timeout p ≠ Wait.fuel ∧
      timeout + waitAck1Iters hw SENS_TIMEOUT timeout p ≤ SENS_TIMEOUT) ∧
    (∀ p, sampleLoop hw 41 0 0 p (List.replicate 40 0) ≠ Sample.fuel) ∧
    (∀ st2, ∃ tx, afterPulse hw st2 p0 = some tx) ∧
    (∀ fuel st, pulseWaitOf hw fuel st = some p0 →
      ∃ r s, handleSensor hw fuel st = some (r, s) ∧ r ≤ 7) ∧
    (ackIters hw p0).1 + (ackIters hw p0).2.1 + (ackIters hw p0).2.2 ≤ SENS_TIMEOUT ∧
    (∀ p3, ackEnd hw p0 = some p3 → sampleIters hw 41 0 0 p3 ≤ SENS_TIMEOUT) := by
  refine ⟨?_, ?_, ?_, ?_, ?_, (ackIters_spec hw p0).1, ?_⟩
  · intro level timeout p ht
    rcases waitWhile_iters hw level SENS_TIMEOUT timeout p ht (by omega) with
      ⟨q, e, hn⟩ | ⟨t1, q, e, hlt, hn⟩
    · rw [e]; exact ⟨by simp, by omega⟩
    · rw [e]; exact ⟨by simp, by omega⟩
  · intro timeout p ht
    rcases waitAck1_iters hw SENS_TIMEOUT timeout p ht (by omega) with
      ⟨q, e, hn⟩ | ⟨t1, q, e, hlt, hn⟩
    · rw [e]; exact ⟨by simp, by omega⟩
    · rw [e]; exact ⟨by simp, by omega⟩
  · intro p
    rcases sampleLoop_total hw 41 0 0 p (List.replicate 40 0) (by decide) (by omega)
      (by omega) with ⟨code, q, e, _⟩ | ⟨bits, q, e⟩
    · rw [e]; simp
    · rw [e]; simp
  · intro st2
    obtain ⟨tx, e, _⟩ := afterPulse_cases hw st2 p0
    exact ⟨tx, e⟩
  · intro fuel st hp
    obtain ⟨r, s, h⟩ := handleSensor_returns hw fuel st (fun _ => by rw [hp]; rfl)
    exact ⟨r, s, h, (handleSensor_frame hw fuel st r s h).1⟩
  · intro p3 _
    have := sampleIters_le hw 41 0 0 p3 (by decide)
    omega

/-- Witness for C16: a due sensor that never answers; the call returns all
the same. -/
theorem handleSensor_bounded_waits_witness :
    ∃ r s, handleSensor deadLine 1 dueState = some (r, s) ∧ r ≤ 7 :=
  (handleSensor_bounded_waits deadLine ⟨1, 40018, 1⟩).2.2.2.2.1 1 dueState (by decide)

/-- Claim C17 (as amended): the three acknowledgement waits share one timeout
counter, which is not reset between them: the call returns 2, 3 or 4 exactly
when the running total of polling iterations of the acknowledgement phase
reaches `SENS_TIMEOUT` in the first, second or third wait, so a later stage
aborts after `SENS_TIMEOUT` minus the iterations of the preceding stages. -/
theorem ack_timeout_shared (hw : Hw) (fuel : Nat) (st : State) (p0 : Poll)
    (hdue : SENS_PERIOD < getTimeDiff st T_WAIT) (hp : pulseWaitOf hw fuel st = some p0) :
    (ackIters hw p0).1 + (ackIters hw p0).2.1 + (ackIters hw p0).2.2 ≤ SENS_TIMEOUT ∧
    (retCode hw fuel st = some 2 ↔ (ackIters hw p0).1 = SENS_TIMEOUT) ∧
    (retCode hw fuel st = some 3 ↔
      (ackIters hw p0).1 < SENS_TIMEOUT ∧
      (ackIters hw p0).1 + (ackIters hw p0).2.1 = SENS_TIMEOUT) ∧
    (retCode hw fuel st = some 4 ↔
      (ackIters hw p0).1 + (ackIters hw p0).2.1 < SENS_TIMEOUT ∧
      (ackIters hw p0).1 + (ackIters hw p0).2.1 + (ackIters hw p0).2.2 = SENS_TIMEOUT) := by
  refine ⟨(ackIters_spec hw p0).1, ?_⟩
  rcases ack_stage_cases hw fuel st p0 hdue hp with
    ⟨hr, h1, h2, h3⟩ | ⟨hr, h1, h2, h3⟩ | ⟨hr, h1, h2⟩ | ⟨hr, h1, _⟩
  · rw [hr]
    simp only [Option.some.injEq]
    refine ⟨?_, ?_, ?_⟩ <;> constructor <;> intro h <;> first | trivial | omega
  · rw [hr]
    simp only [Option.some.injEq]
    refine ⟨?_, ?_, ?_⟩ <;> constructor <;> intro h <;> first | trivial | omega
  · rw [hr]
    simp only [Option.some.injEq]
    refine ⟨?_, ?_, ?_⟩ <;> constructor <;> intro h <;> first | trivial | omega
  · rcases hr with hr | hr | hr | hr <;> rw [hr] <;>
      simp only [Option.some.injEq, SENS_OK] <;>
      refine ⟨?_, ?_, ?_⟩ <;> constructor <;> intro h <;> first | trivial | omega

/-- Witness for C17: with the line low and `TCNT0` advancing by one count per
observation the first wait takes 15 iterations and the second aborts with
code 3 when the total reaches `SENS_TIMEOUT`. -/
theorem ack_timeout_shared_witness :
    (ackIters deadLine ⟨1, 40018, 1⟩).1 < SENS_TIMEOUT ∧
    (ackIters deadLine ⟨1, 40018, 1⟩).1 + (ackIters deadLine ⟨1, 40018, 1⟩).2.1
      = SENS_TIMEOUT :=
  (ack_timeout_shared deadLine 1 dueState ⟨1, 40018, 1⟩ (by decide) (by decide)).2.2.1.1
    (retCode_low_done deadLine 1 dueState ⟨1, 40018, 1⟩ ⟨32, 40576, 31⟩ 15 (by decide)
      (by decide) (fun _ => rfl) (by decide))

/-- Counterexample to C17 as stated: with the line low and `TCNT0` advancing
by one count per observation the second wait aborts with code 3 after 64985
polling iterations of its own, the first wait having used 15 of the shared
65000. -/
theorem ack_timeout_independent_counterexample :
    pulseWaitOf deadLine 1 dueState = some ⟨1, 40018, 1⟩ ∧
    retCode deadLine 1 dueState = some 3 ∧
    (ackIters deadLine ⟨1, 40018, 1⟩).1 = 15 ∧
    (ackIters deadLine ⟨1, 40018, 1⟩).2.1 = 64985 ∧
    (ackIters deadLine ⟨1, 40018, 1⟩).2.1 ≠ SENS_TIMEOUT := by
  have h1 : waitAck1 deadLine SENS_TIMEOUT 0 { (⟨1, 40018, 1⟩ : Poll) with TCNT0 := 0 }
      = Wait.done 15 ⟨32, 40576, 31⟩ := by decide
  obtain ⟨q, h2⟩ := waitWhile_stuck deadLine false (fun _ => rfl) SENS_TIMEOUT 15
    ⟨32, 40576, 31⟩ (by decide) (by decide)
  obtain ⟨hn1, hn2⟩ := (ackIters_spec deadLine ⟨1, 40018, 1⟩).2.2.1 15 ⟨32, 40576, 31⟩ q h1 h2
  have hcap : SENS_TIMEOUT = 65000 := rfl
  refine ⟨by decide, ?_, hn1, by omega, by omega⟩
  exact retCode_low_done deadLine 1 dueState ⟨1, 40018, 1⟩ ⟨32, 40576, 31⟩ 15 (by decide)
    (by decide) (fun _ => rfl) h1

end TerraControl
